import Mathlib

/-!
Shallow embedding of `src/wacz/waczindexer.py` (class `WACZIndexer`).

Python dicts are embedded as association lists (`Dict α`), Python `str`-or-`None`
values as `Option String` (with `none` standing for Python `None`), and the
exceptions that can escape the scan as an `Except ScanError` result.  External
collaborators that are not part of this repository's core (the `json.loads`
parser, the boilerpy3 article extractor, warcio's date conversion, hashlib and
the HTTP client) are abstracted as explicit oracle parameters or as fields of
the record carrying their outcome, exactly at the call sites where the source
invokes them.
-/

namespace Wacz

/-- Python dict embedded as an association list from string keys. -/
abbrev Dict (α : Type) : Type := List (String × α)

/-- `d[k]` lookup returning `none` when the key is absent. -/
def dictGet {α : Type} : Dict α → String → Option α
  | [], _ => none
  | (k', v) :: rest, k => if k' = k then some v else dictGet rest k

/-- `d[k] = v`: replace the binding if the key is present, else append it. -/
def dictSet {α : Type} (d : Dict α) (k : String) (v : α) : Dict α :=
  if d.any (fun p => p.1 == k) then
    d.map (fun p => if p.1 = k then (k, v) else p)
  else d ++ [(k, v)]

/-- `del d[k]`: after deletion the key is no longer bound. -/
def dictDel {α : Type} (d : Dict α) (k : String) : Dict α :=
  d.filter (fun p => p.1 != k)

/-- In-place mutation `d[k].field = ...` of the value stored under `k`. -/
def dictUpdate {α : Type} (d : Dict α) (k : String) (f : α → α) : Dict α :=
  d.map (fun p => if p.1 = k then (p.1, f p.2) else p)

/-- `set.add(x)` on a set embedded as a duplicate-free list. -/
def setAdd (l : List String) (x : String) : List String :=
  if l.contains x then l else l ++ [x]

/-- Python truthiness of a `str`-or-`None` value: `None` and `""` are falsy. -/
def pyTruthy (o : Option String) : Prop := o ≠ none ∧ o ≠ some ""

instance (o : Option String) : Decidable (pyTruthy o) := by
  unfold pyTruthy; infer_instance

/-- Python `s.startswith(p)` (kernel-reducible replacement for
`String.startsWith`). -/
def strStartsWith (s p : String) : Bool := p.toList.isPrefixOf s.toList

/-- Helper for `splitOnChar`: accumulate the current chunk in reverse. -/
def splitCharAux (c : Char) : List Char → List Char → List (List Char)
  | [], acc => [acc.reverse]
  | x :: xs, acc =>
    if x == c then acc.reverse :: splitCharAux c xs []
    else splitCharAux c xs (x :: acc)

/-- Python `s.split(c)` for a one-character separator (kernel-reducible
replacement for `String.splitOn`). -/
def splitOnChar (c : Char) (s : String) : List String :=
  (splitCharAux c s.toList []).map String.mk

/-- Python `s.lower()` (kernel-reducible replacement for `String.toLower`). -/
def strToLower (s : String) : String := String.mk (s.toList.map Char.toLower)

/-- Last element of a list with a default (kernel-reducible). -/
def lastD {α : Type} (d : α) : List α → α
  | [] => d
  | [x] => x
  | _ :: x :: xs => lastD d (x :: xs)

/-- Python `line.split(":", 1)`: split on the first colon only. -/
def pySplit1 (s : String) : List String :=
  match s.toList.findIdx? (· == ':') with
  | some i => [String.mk (s.toList.take i), String.mk (s.toList.drop (i + 1))]
  | none => [s]

/-- Python `s.rstrip()`: drop trailing whitespace. -/
def pyRstrip (s : String) : String :=
  String.mk (((s.toList.reverse).dropWhile Char.isWhitespace).reverse)

/-- Python `s.strip()`: drop whitespace on both ends. -/
def pyStrip (s : String) : String :=
  String.mk ((((s.toList.dropWhile Char.isWhitespace).reverse).dropWhile
    Char.isWhitespace).reverse)

/-- Python `os.path.basename` on posix: the component after the last slash. -/
def pyBasename (s : String) : String := lastD s (splitOnChar '/' s)

/-- Python `a or b` where `a` is a `str`-or-`None` value and `b` a string. -/
def pyOr (a : Option String) (b : String) : String :=
  match a with
  | some s => if s ≠ "" then s else b
  | none => b

/-- Result of `urllib.parse.urlsplit`. -/
structure SplitResult where
  scheme : String := ""
  netloc : String := ""
  path : String := ""
  query : String := ""
  fragment : String := ""
deriving DecidableEq

/-- Characters urllib allows inside a URL scheme. -/
def schemeChar (c : Char) : Bool := c.isAlphanum || c == '+' || c == '-' || c == '.'

/-- Model of `urllib.parse.urlsplit` for `str` input: scheme (leading alpha then
scheme chars before the first colon, lowercased), netloc after `//` up to the
first of `/?#`, then fragment split at the first `#`, then query at the first
`?`, the remainder being the path. -/
def urlsplit (url : String) : SplitResult :=
  let l := url.toList
  let schemeRest : String × List Char :=
    match l.findIdx? (· == ':') with
    | some i =>
      if 0 < i ∧ (l.headD ' ').isAlpha ∧ (l.take i).all schemeChar then
        (String.mk ((l.take i).map Char.toLower), l.drop (i + 1))
      else ("", l)
    | none => ("", l)
  let netlocRest : List Char × List Char :=
    match schemeRest.2 with
    | '/' :: '/' :: r =>
      match r.findIdx? (fun c => c == '/' || c == '?' || c == '#') with
      | some n => (r.take n, r.drop n)
      | none => (r, [])
    | rest => ([], rest)
  let fragSplit : List Char × List Char :=
    match netlocRest.2.findIdx? (· == '#') with
    | some i => (netlocRest.2.take i, netlocRest.2.drop (i + 1))
    | none => (netlocRest.2, [])
  let querySplit : List Char × List Char :=
    match fragSplit.1.findIdx? (· == '?') with
    | some i => (fragSplit.1.take i, fragSplit.1.drop (i + 1))
    | none => (fragSplit.1, [])
  { scheme := schemeRest.1, netloc := String.mk netlocRest.1,
    path := String.mk querySplit.1, query := String.mk querySplit.2,
    fragment := String.mk fragSplit.2 }

/-- Model of `urllib.parse.urlsplit`-inverse `urlunsplit`. -/
def urlunsplit (p : SplitResult) : String :=
  let url := p.path
  let url :=
    if p.netloc ≠ "" ∨ (url ≠ "" ∧ url.take 2 = "//") then
      "//" ++ p.netloc ++ (if url ≠ "" ∧ url.take 1 ≠ "/" then "/" ++ url else url)
    else url
  let url := if p.scheme ≠ "" then p.scheme ++ ":" ++ url else url
  let url := if p.query ≠ "" then url ++ "?" ++ p.query else url
  if p.fragment ≠ "" then url ++ "#" ++ p.fragment else url

/-- A page dict as held in `self.pages` / `self.extra_pages` / metadata pages:
`timestamp` and `url` are the keys the source always reads, `title`, `text` and
`seed` are the optional keys (`seed` is only ever tested for truthiness). -/
structure PageEntry where
  timestamp : String := ""
  url : String := ""
  title : Option String := none
  text : Option String := none
  seed : Bool := false
deriving DecidableEq

/-- An entry of the caller-supplied `passed_pages_dict`: optional `title`,
`text` and `seed` keys (`input_page.get("seed")` truthiness). -/
structure ExpectedPage where
  title : Option String := none
  text : Option String := none
  seed : Bool := false
deriving DecidableEq

/-- A named page list from collection metadata (`metadata["lists"]`). -/
structure PageList where
  slug : Option String := none
  title : Option String := none
  desc : Option String := none
  bookmarks : List PageEntry := []
deriving DecidableEq

/-- The structured value produced by `json.loads` on a `json-metadata` blob.
`type?` is `none` exactly when the `"type"` key is absent. -/
structure Metadata where
  type? : Option String := none
  title : Option String := none
  desc : Option String := none
  pages : List PageEntry := []
  lists : Option (List PageList) := none
deriving DecidableEq

/-- `record.http_headers` when present: the `Content-Type` header (possibly
absent) and the result of `get_statuscode()`. -/
structure HttpHeaders where
  content_type : Option String := none
  statuscode : String := ""
deriving DecidableEq

/-- The outcome of boilerpy3's `ArticleExtractor.get_doc`: `doc.content` and
`doc.title`, with `""` standing for a falsy (absent) value. -/
structure ExtractDoc where
  content : String := ""
  title : String := ""
deriving DecidableEq

/-- One record as delivered by the cdxj-indexer collaborator.  `ts` is the
result of warcio's `iso_date_to_timestamp` on the `WARC-Date` header (the
conversion itself is external), `body` the UTF-8 decoded `_read_record`
content, `extract` the outcome of the external UTF-8 decode plus boilerpy3
extraction (`none` = the try-block raised), `referrer` the `referrer` field of
the index entry the upstream writer passes to `_do_write`, and `passes_filter`
the verdict of the external `CDXJIndexer.filter_record`. -/
structure Record where
  rec_type : String := "response"
  url : String := ""
  ts : String := ""
  http_headers : Option HttpHeaders := none
  rec_content_type : Option String := none
  body : String := ""
  extract : Option ExtractDoc := none
  referrer : Option String := none
  passes_filter : Bool := true
deriving DecidableEq

/-- The mutable attributes of a `WACZIndexer` instance.  `main_url`, `main_ts`,
`hash_type`, `signing_url` and `signing_token` are Python `str`-or-`None`
values; `main_url_flag` / `main_ts_flag` are `none` while the attribute does
not exist (`hasattr` is false); `main_page` couples `main_page_id` with
`main_page_entry`, which the source only ever assigns together. -/
structure IndexerState where
  pages : Dict PageEntry := []
  extra_pages : Dict PageEntry := []
  extra_page_lists : List PageList := []
  title : String := ""
  desc : String := ""
  has_text : Bool := false
  main_url : Option String := some ""
  main_ts : Option String := some ""
  main_page : Option (String × PageEntry) := none
  hash_type : Option String := some ""
  signing_url : Option String := some ""
  signing_token : Option String := some ""
  created : Option String := none
  passed_pages_dict : Dict ExpectedPage := []
  split_seeds : Bool := false
  main_url_flag : Option Bool := none
  main_ts_flag : Option Bool := none
  detect_pages : Bool := false
  detect_referrer_check : Bool := true
  extract_text : Bool := false
  referrers : List String := []
deriving DecidableEq

/-- The keyword arguments of `WACZIndexer.__init__` after the `kwargs.pop`
defaults have been applied: each `Option String` field holds what
`kwargs.pop(name, "")` returns, so an omitted keyword shows up as `some ""` and
an explicit Python `None` as `none`.  The boolean flags mirror the popped /
`kwargs.get` values with falsy defaults. -/
structure InitArgs where
  main_url : Option String := some ""
  main_ts : Option String := some ""
  hash_type : Option String := some ""
  signing_url : Option String := some ""
  signing_token : Option String := some ""
  passed_pages_dict : Dict ExpectedPage := []
  split_seeds : Bool := false
  detect_pages : Bool := false
  extract_text : Bool := false
deriving DecidableEq

/-- Exceptions that can escape the scan: the two `json-metadata` parsing
failures of `parse_warcinfo` and the two `ValueError`s of `process_all`
(each carrying the values interpolated into its message). -/
inductive ScanError where
  | jsonDecodeError : ScanError
  | indexError : ScanError
  | tsNotFound (ts url : Option String) : ScanError
  | urlNotFound (url : Option String) : ScanError
deriving DecidableEq

instance {ε α : Type} [DecidableEq ε] [DecidableEq α] : DecidableEq (Except ε α) := fun x y =>
  match x, y with
  | .ok a, .ok b =>
    if h : a = b then .isTrue (by rw [h]) else .isFalse (by simp [h])
  | .error a, .error b =>
    if h : a = b then .isTrue (by rw [h]) else .isFalse (by simp [h])
  | .ok _, .error _ => .isFalse (by simp)
  | .error _, .ok _ => .isFalse (by simp)

/-- `WACZIndexer.__init__` (lines 28-73): pop the kwargs, default `hash_type`
to `"sha256"` only when it is Python `None`, create the two main-page flags
only when `main_url` is a non-empty string, and give `main_url` a `"/"` path
when its parsed path component is empty (the `try`/`except` around the
normalization only fires for non-string input, where `main_url` stays
unchanged). -/
def WACZIndexer_init (a : InitArgs) : IndexerState :=
  let hash_type := if a.hash_type = none then some "sha256" else a.hash_type
  let flagsPresent : Prop := a.main_url ≠ none ∧ a.main_url ≠ some ""
  let main_url : Option String :=
    match a.main_url with
    | none => none
    | some u =>
      let p := urlsplit u
      if p.path = "" then some (urlunsplit { p with path := "/" }) else some u
  { main_url := main_url, main_ts := a.main_ts, hash_type := hash_type,
    signing_url := a.signing_url, signing_token := a.signing_token,
    passed_pages_dict := a.passed_pages_dict, split_seeds := a.split_seeds,
    main_url_flag := if flagsPresent then some false else none,
    main_ts_flag := if flagsPresent then some false else none,
    detect_pages := a.detect_pages, extract_text := a.extract_text }

/-- Modelled from the spec: `check_http_and_https` lives in `wacz/util.py`,
which is not part of the given sources.  Per spec section 4.2 it tries the
exact id `ts + "/" + url` against the expected-pages table, then the same id
with `http` and `https` swapped in the url, and returns the matched key (a
falsy value, here `none`, when neither is present). -/
def check_http_and_https (url ts : String) (d : Dict ExpectedPage) :
    Option String :=
  let id1 := ts ++ "/" ++ url
  if (dictGet d id1).isSome then some id1
  else
    let swapped : Option String :=
      if strStartsWith url "http://" then some ("https://" ++ url.drop 7)
      else if strStartsWith url "https://" then some ("http://" ++ url.drop 8)
      else none
    match swapped with
    | some u2 =>
      let id2 := ts ++ "/" ++ u2
      if (dictGet d id2).isSome then some id2 else none
    | none => none

/-- Lines 199-223 of `check_pages_and_text`: resolve the record against
`passed_pages_dict`, build the new page dict (title/text taken from the
matched entry when present), route it to `extra_pages` when seed-splitting is
on and the entry is not marked `seed`, and delete the consumed entry. -/
def expected_match_phase (st : IndexerState) (r : Record) : IndexerState :=
  match check_http_and_https r.url r.ts st.passed_pages_dict with
  | none => st
  | some matched_id =>
    match dictGet st.passed_pages_dict matched_id with
    | none => st
    | some input_page =>
      let new_page : PageEntry := { timestamp := r.ts, url := r.url, title := some r.url }
      let new_page :=
        match input_page.title with
        | some t => { new_page with title := some t }
        | none => new_page
      let new_page :=
        match input_page.text with
        | some t => { new_page with text := some t }
        | none => new_page
      let st :=
        if st.split_seeds ∧ input_page.seed = false then
          { st with extra_pages := dictSet st.extra_pages matched_id new_page }
        else
          { st with pages := dictSet st.pages matched_id new_page }
      { st with passed_pages_dict := dictDel st.passed_pages_dict matched_id }

/-- Lines 225-244 of `check_pages_and_text`: the exact url/timestamp main-page
branch.  It fires on a truthy url and timestamp that both match, sets both
found-flags, and synthesizes the seed entry only when `passed_pages_dict` is
empty at that moment. -/
def main_page_exact_branch (st : IndexerState) (r : Record) : IndexerState :=
  let id_ := r.ts ++ "/" ++ r.url
  if pyTruthy st.main_url ∧ st.main_url = some r.url ∧
      pyTruthy st.main_ts ∧ st.main_ts = some r.ts then
    let st := { st with main_ts_flag := some true, main_url_flag := some true }
    if st.passed_pages_dict = ([] : Dict ExpectedPage) then
      let entry : PageEntry :=
        { timestamp := r.ts, url := r.url, title := some r.url, seed := true }
      { st with main_page := some (id_, entry), pages := dictSet st.pages id_ entry }
    else st
  else st

/-- Lines 245-256 of `check_pages_and_text`: the url-only main-page branch.
It fires when the truthy url matches and `main_ts` is Python `None`, sets the
url found-flag, and synthesizes the seed entry whenever the id is not already
a page (regardless of `passed_pages_dict`). -/
def main_page_urlonly_branch (st : IndexerState) (r : Record) : IndexerState :=
  let id_ := r.ts ++ "/" ++ r.url
  if pyTruthy st.main_url ∧ st.main_url = some r.url ∧ st.main_ts = none then
    let st := { st with main_url_flag := some true }
    if dictGet st.pages id_ = (none : Option PageEntry) then
      let entry : PageEntry :=
        { timestamp := r.ts, url := r.url, title := some r.url, seed := true }
      { st with main_page := some (id_, entry), pages := dictSet st.pages id_ entry }
    else st
  else st

/-- Lines 225-256 of `check_pages_and_text`: main-page resolution, the exact
branch followed by the url-only branch (the source evaluates the two `if`
statements in this order on the mutated instance). -/
def main_page_phase (st : IndexerState) (r : Record) : IndexerState :=
  main_page_urlonly_branch (main_page_exact_branch st r) r

/-- The `HTML_MIME_TYPES` tuple. -/
def HTML_MIME_TYPES : List String :=
  ["text/html", "application/xhtml", "application/xhtml+xml"]

/-- `get_record_mime_type` (lines 303-312): `Content-Type` from the HTTP
headers when they exist, else from the WARC headers, defaulted to `""` and
truncated at the first `";"`. -/
def get_record_mime_type (r : Record) : String :=
  let content_type :=
    match r.http_headers with
    | some h => h.content_type
    | none => r.rec_content_type
  let mime := content_type.getD ""
  (splitOnChar ';' mime).headD ""

/-- Lines 272-301 of `check_pages_and_text`: the text-extraction tail, which
runs once the record is known to be (or has just become) a page.  The
extractor's try-block (UTF-8 decode plus `get_doc`) is abstracted by
`r.extract`; `none` means the block raised and was caught (extraction skipped
and logged).  On success the body text is stored when truthy, and the title
is replaced only while the current title still equals the record url. -/
def text_extract_pages (extract_on : Bool) (pgs : Dict PageEntry)
    (ht : Bool) (r : Record) : Dict PageEntry × Bool :=
  let id_ := r.ts ++ "/" ++ r.url
  if ¬ extract_on then (pgs, ht)
  else if r.body = "" then (pgs, ht)
  else
    match r.extract with
    | none => (pgs, ht)
    | some doc =>
      let ph :=
        if doc.content ≠ "" then
          (dictUpdate pgs id_ (fun e => { e with text := some doc.content }), true)
        else (pgs, ht)
      let titleIsDefault : Bool :=
        match dictGet ph.1 id_ with
        | some e => e.title.getD r.url == r.url
        | none => true
      if doc.title ≠ "" ∧ titleIsDefault = true then
        (dictUpdate ph.1 id_ (fun e => { e with title := some doc.title }), ph.2)
      else ph

/-- The same block lifted back to the instance: the try-block only ever
assigns `self.pages[id_]` and `self.has_text`. -/
def text_extract_block (st : IndexerState) (r : Record) : IndexerState :=
  let ph := text_extract_pages st.extract_text st.pages st.has_text r
  { st with pages := ph.1, has_text := ph.2 }

/-- Lines 258-270 of `check_pages_and_text`: the MIME / redirect gate and the
page-detection fallback.  A non-HTML MIME type or a 3xx status returns early;
an unknown id either becomes a detected page (detection on) or returns early
(detection off); otherwise the text-extraction tail runs. -/
def text_phase (st : IndexerState) (r : Record) : IndexerState :=
  let id_ := r.ts ++ "/" ++ r.url
  let mime := get_record_mime_type r
  if ¬ (mime ∈ HTML_MIME_TYPES) then st
  else if (match r.http_headers with
           | some h => strStartsWith h.statuscode "3"
           | none => false) then st
  else
    match dictGet st.pages id_ with
    | some _ => text_extract_block st r
    | none =>
      if st.detect_pages then
        let detected : PageEntry := { timestamp := r.ts, url := r.url, title := some r.url }
        text_extract_block { st with pages := dictSet st.pages id_ detected } r
      else st

/-- `check_pages_and_text` (lines 194-301) as the sequential composition of
its three phases. -/
def check_pages_and_text (st : IndexerState) (r : Record) : IndexerState :=
  text_phase (main_page_phase (expected_match_phase st r) r) r

/-- The `for line in ...` loop of `parse_warcinfo` (lines 148-153) restricted
to its one live effect, the `metadata` accumulator: a line whose first
`split(":", 1)` part is `json-metadata` feeds its remainder to `json.loads`
(an `IndexError` when the colon is missing, a decode error when `loads`
fails); every other line only populates the local `warcinfo` dict, which the
function never returns, so it is not modelled. -/
def warcinfo_scan_lines (loads : String → Option Metadata) :
    Option Metadata → List String → Except ScanError (Option Metadata)
  | meta, [] => .ok meta
  | meta, line :: rest =>
    match pySplit1 line with
    | [k] =>
      if k = "json-metadata" then .error .indexError
      else warcinfo_scan_lines loads meta rest
    | [k, blob] =>
      if k = "json-metadata" then
        match loads blob with
        | some m => warcinfo_scan_lines loads (some m) rest
        | none => .error .jsonDecodeError
      else warcinfo_scan_lines loads meta rest
    | _ => warcinfo_scan_lines loads meta rest

/-- `parse_warcinfo` (lines 138-172): scan the decoded record body line by
line, return unchanged when no metadata with a `"type"` key was found,
populate title/desc/page-lists for `type == "collection"`, seed `pages` for
`type == "recording"` when no expected-pages dict was passed, and in every
case that got past the early return clear `detect_referrer_check`.  The
serialization of page lists (`extract_page_lists`) draws fresh ids from the
external `shortuuid`, so the model keeps the raw lists. -/
def parse_warcinfo (loads : String → Option Metadata) (st : IndexerState)
    (r : Record) : Except ScanError IndexerState :=
  match warcinfo_scan_lines loads none (splitOnChar '\n' (pyRstrip r.body)) with
  | .error e => .error e
  | .ok none => .ok st
  | .ok (some m) =>
    if m.type? = none then .ok st
    else
      let st :=
        if m.type? = some "collection" then
          let st := { st with title := m.title.getD "", desc := m.desc.getD "" }
          (match m.lists with
           | some ls =>
             if ls ≠ [] then { st with extra_page_lists := st.extra_page_lists ++ ls } else st
           | none => st)
        else if m.type? = some "recording" ∧ st.passed_pages_dict = ([] : Dict ExpectedPage) then
          let seeded := m.pages.foldl
            (fun pgs p => dictSet pgs (p.timestamp ++ "/" ++ p.url) p) st.pages
          { st with pages := seeded }
        else st
      .ok { st with detect_referrer_check := false }

/-- Whether processing a record closes the referrer-pruning gate: it must be
a warcinfo record whose scanned `json-metadata` blob parses to a value with a
`"type"` key — of any value; `parse_warcinfo` clears `detect_referrer_check`
after the early return regardless of which type it saw. -/
def closes_referrer_gate (loads : String → Option Metadata) (r : Record) : Bool :=
  (r.rec_type == "warcinfo") &&
    (match warcinfo_scan_lines loads none (splitOnChar '\n' (pyRstrip r.body)) with
     | .ok (some m) => m.type?.isSome
     | _ => false)

/-- `_do_write`/`detect_page` (lines 119-128) as reached through the super
call of `process_index_entry`: when page detection is on, record a truthy
`referrer` index field into the referrer set. -/
def do_write_detect (st : IndexerState) (r : Record) : IndexerState :=
  if st.detect_pages then
    match r.referrer with
    | some ref => if ref ≠ "" then { st with referrers := setAdd st.referrers ref } else st
    | none => st
  else st

/-- `process_index_entry` (lines 75-84): warcinfo records go to
`parse_warcinfo`; filtered records of type response/resource/revisit go
through `check_pages_and_text` and then, like every other filtered record,
through the superclass indexing that reaches `_do_write`. -/
def process_index_entry (loads : String → Option Metadata) (st : IndexerState)
    (r : Record) : Except ScanError IndexerState :=
  if r.rec_type = "warcinfo" then parse_warcinfo loads st r
  else if r.passes_filter then
    let st :=
      if r.rec_type = "response" ∨ r.rec_type = "resource" ∨ r.rec_type = "revisit" then
        check_pages_and_text st r
      else st
    .ok (do_write_detect st r)
  else .ok st

/-- Lines 91-97 of `process_all`: collect the ids whose url was never seen as
a referrer, then delete each of them from `pages`. -/
def prune_pages (pgs : Dict PageEntry) (refs : List String) : Dict PageEntry :=
  let to_delete := (pgs.filter (fun p => !(refs.contains p.2.url))).map Prod.fst
  to_delete.foldl dictDel pgs

/-- Lines 90-97 of `process_all`: referrer pruning, applied only while
`detect_referrer_check` is still set. -/
def prune_step (st : IndexerState) : IndexerState :=
  if st.detect_referrer_check then
    { st with pages := prune_pages st.pages st.referrers }
  else st

/-- Lines 99-104 of `process_all`: when no expected pages remain, print the
detection count and, when seed-splitting is on and a main page was found,
move the whole `pages` dict into `extra_pages` and collapse `pages` to the
main page. -/
def split_step (st : IndexerState) : IndexerState :=
  if st.passed_pages_dict = ([] : Dict ExpectedPage) then
    (match st.split_seeds, st.main_page with
     | true, some (mid, me) => { st with extra_pages := st.pages, pages := [(mid, me)] }
     | _, _ => st)
  else st

/-- Lines 89-104 of `process_all`: the whole `if self.detect_pages` block. -/
def post_scan_collections (st : IndexerState) : IndexerState :=
  if st.detect_pages then split_step (prune_step st) else st

/-- The post-scan tail of `process_all` (lines 89-117): referrer pruning when
the gate is still open, the seed-split reassignment (`extra_pages` becomes the
whole `pages` dict, `pages` collapses to the main page), and the two
main-page validation `ValueError`s. -/
def post_scan (st : IndexerState) : Except ScanError IndexerState :=
  let st := post_scan_collections st
  if st.main_url_flag = some false ∧ st.main_ts_flag = some false then
    .error (ScanError.tsNotFound st.main_ts st.main_url)
  else if st.main_url_flag = some false then
    .error (ScanError.urlNotFound st.main_url)
  else .ok st

/-- The record loop of the superclass `process_all`: fold
`process_index_entry` over the records, stopping at the first escaped
exception. -/
def run_records (loads : String → Option Metadata) :
    IndexerState → List Record → Except ScanError IndexerState
  | st, [] => .ok st
  | st, r :: rs =>
    match process_index_entry loads st r with
    | .ok st' => run_records loads st' rs
    | .error e => .error e

/-- `process_all` (lines 86-117): construct the indexer, run the scan, then
the post-scan pruning, splitting and validation. -/
def process_all (loads : String → Option Metadata) (a : InitArgs)
    (records : List Record) : Except ScanError IndexerState :=
  match run_records loads (WACZIndexer_init a) records with
  | .ok st => post_scan st
  | .error e => .error e

/-- Modelled from the spec: `WACZ_VERSION` is a fixed format-version constant
imported from `wacz/util.py`, which is not part of the given sources (spec
section 4.6: a fixed constant of the implementation). -/
def WACZ_VERSION : String := "1.1.1"

/-- Modelled from the spec: `get_py_wacz_version` comes from `wacz/util.py`,
outside the given sources; per spec section 4.6 the generator name is a fixed
constant of the implementation. -/
def get_py_wacz_version : String := "0.0.0"

/-- Modelled from the spec: `hash_stream` lives in `wacz/util.py`, outside the
given sources.  Per spec section 4.6 it streams the entry bytes through the
named hash algorithm and yields the byte count and the algorithm-prefixed hex
digest; the hash function itself is abstracted as the oracle `hashHex`. -/
def hash_stream (hashHex : String → String → String) (hash_type : String)
    (content : String) : Nat × String :=
  (content.length, hash_type ++ ":" ++ hashHex hash_type content)

/-- One entry of the output archive as listed by `wacz.infolist()`: its stored
name and the bytes readable from it. -/
structure ZipEntry where
  filename : String := ""
  content : String := ""
deriving DecidableEq

/-- One element of the manifest's `resources` array. -/
structure ResEntry where
  name : String := ""
  path : String := ""
  hash : String := ""
  bytes : Nat := 0
deriving DecidableEq

/-- The caller-supplied `res` namespace as read by `generate_datapackage`:
optional title, description and literal date overrides. -/
structure ResArgs where
  title : Option String := none
  desc : Option String := none
  date : Option String := none
deriving DecidableEq

/-- The `package_dict` assembled by `generate_datapackage`, with the optional
keys as `Option` fields. -/
structure PackageDict where
  profile : String := ""
  resources : List ResEntry := []
  title : Option String := none
  description : Option String := none
  mainPageURL : Option String := none
  mainPageDate : Option String := none
  created : String := ""
  wacz_version : String := ""
  software : String := ""
deriving DecidableEq

/-- `generate_datapackage` (lines 352-400).  `hashHex` abstracts hashlib,
`tsToIso` warcio's `timestamp_to_iso_date`, and `nowStr` the formatted
`datetime.datetime.utcnow()`; the function also records the `created` string
on the instance for `do_sign`, so it returns the updated state alongside the
package dict. -/
def generate_datapackage (hashHex : String → String → String)
    (tsToIso : String → String) (nowStr : String) (res : ResArgs)
    (entries : List ZipEntry) (st : IndexerState) :
    PackageDict × IndexerState :=
  let resources := entries.map (fun z =>
    let sizeHash := hash_stream hashHex (st.hash_type.getD "") z.content
    { name := strToLower (pyBasename z.filename), path := z.filename,
      hash := sizeHash.2, bytes := sizeHash.1 : ResEntry })
  let desc := pyOr res.desc st.desc
  let title := pyOr res.title st.title
  let mainPageDate :=
    if pyTruthy st.main_url ∧ pyTruthy st.main_ts then
      some (tsToIso (st.main_ts.getD ""))
    else none
  let mainPageDate :=
    match res.date with
    | some d => if d ≠ "" then some d else mainPageDate
    | none => mainPageDate
  let pd : PackageDict :=
    { profile := "data-package", resources := resources,
      title := if title ≠ "" then some title else none,
      description := if desc ≠ "" then some desc else none,
      mainPageURL := if pyTruthy st.main_url then st.main_url else none,
      mainPageDate := mainPageDate,
      created := nowStr, wacz_version := WACZ_VERSION,
      software := "py-wacz " ++ get_py_wacz_version }
  (pd, { st with created := some nowStr })

/-- The JSON object of a signing response: the `hash` and `created` members
when present (`none` = the key is absent, so indexing raises a `KeyError`). -/
structure SignJson where
  hash? : Option String := none
  created? : Option String := none
deriving DecidableEq

/-- The `requests.post` response: status code and the outcome of `res.json()`
(`none` = the JSON decode raised). -/
structure HttpResponse where
  status_code : Nat := 200
  jsonBody : Option SignJson := none
deriving DecidableEq

/-- The digest record built by `generate_datapackage_digest`. -/
structure DigestDict where
  path : String := ""
  hash : String := ""
  signedData : Option SignJson := none
deriving DecidableEq

/-- `do_sign` (lines 413-436).  The whole body sits in a bare `try`/`except`,
so every failure path leaves the digest dict unchanged: a transport exception
(`post_result = none`), a non-200 status (the raised `ValueError` is caught by
the same handler), an undecodable response body, a missing `hash` or `created`
member (`KeyError`), or an echoed `hash`/`created` that differs from the
request.  Only full agreement attaches `signedData`. -/
def do_sign (post_result : Option HttpResponse) (st : IndexerState)
    (d : DigestDict) : DigestDict :=
  match post_result with
  | none => d
  | some res =>
    if res.status_code ≠ 200 then d
    else
      match res.jsonBody with
      | none => d
      | some j =>
        match j.hash? with
        | none => d
        | some h =>
          if h ≠ d.hash then d
          else
            match j.created? with
            | none => d
            | some c =>
              if some c ≠ st.created then d
              else { d with signedData := some j }

/-- `generate_datapackage_digest` (lines 402-411): build the digest record
over the manifest bytes (`sha256hex` abstracts `hashlib.sha256`) and hand it
to `do_sign` only when a signing url is configured. -/
def generate_datapackage_digest (sha256hex : String → String)
    (post_result : Option HttpResponse) (st : IndexerState)
    (datapackage_bytes : String) : DigestDict :=
  let d : DigestDict :=
    { path := "datapackage.json", hash := "sha256:" ++ sha256hex datapackage_bytes }
  if pyTruthy st.signing_url then do_sign post_result st d else d

/-! ## Concrete scan inputs used by the claim counterexamples and witnesses -/

/-- Unwrap a successful scan outcome (used to name concrete final states). -/
def okState (e : Except ScanError IndexerState) : IndexerState :=
  match e with
  | .ok st => st
  | .error _ => {}

/-- A `json.loads` oracle for a metadata blob whose `type` is the
unrecognized string `"other"`. -/
def c3_loads : String → Option Metadata := fun s =>
  if s = " \x7b\"type\": \"other\"\x7d" then some { type? := some "other" } else none

/-- Page-detection configuration with no main page and no expected pages. -/
def c3_args : InitArgs := { detect_pages := true }

/-- A warcinfo record carrying metadata of the unrecognized type `"other"`. -/
def c3_warcinfo : Record :=
  { rec_type := "warcinfo", body := "json-metadata: \x7b\"type\": \"other\"\x7d" }

/-- An HTML response that auto-detection turns into a page; no record of the
scan carries a referrer, so its url is never in the referrer set. -/
def c3_response : Record :=
  { rec_type := "response", url := "http://p/", ts := "20200101000001",
    http_headers := some { content_type := some "text/html", statuscode := "200" } }

/-- A `json.loads` oracle that fails on every blob, standing for `json.loads`
applied to a string that is not valid JSON. -/
def c4_loads : String → Option Metadata := fun _ => none

/-- A warcinfo record whose `json-metadata` line carries an invalid blob. -/
def c4_warcinfo : Record :=
  { rec_type := "warcinfo", body := "json-metadata: not json" }

/-- Configuration for C5: a main page url with no timestamp (Python `None`)
and a caller-supplied expected-pages table that the record does not match. -/
def c5_args : InitArgs :=
  { main_url := some "http://a/", main_ts := none,
    passed_pages_dict := [("20190101000000/http://x/", { title := some "T" })] }

/-- A response matching the C5 main url at some timestamp; its MIME type is
not HTML so neither detection nor extraction interferes. -/
def c5_record : Record :=
  { rec_type := "response", url := "http://a/", ts := "20200101000000",
    rec_content_type := some "text/plain" }

/-- State for C6: an expected-pages table holding one entry under the
`http` scheme. -/
def c6_state : IndexerState :=
  { passed_pages_dict := [("20200101000000/http://a/", { title := some "T" })] }

/-- A record at the same timestamp whose url carries the `https` scheme, so
only the scheme-swapped id matches the table. -/
def c6_record : Record :=
  { rec_type := "response", url := "https://a/", ts := "20200101000000",
    rec_content_type := some "text/plain" }

/-- C9 state: a page whose title was already set to something other than its
bare url, with text extraction enabled. -/
def c9_state : IndexerState :=
  { pages := [("20200101000000/http://a/",
      { timestamp := "20200101000000", url := "http://a/", title := some "My Title" })],
    extract_text := true }

/-- C9 record: an HTML response whose extraction succeeds with both body text
and a title. -/
def c9_record : Record :=
  { rec_type := "response", url := "http://a/", ts := "20200101000000",
    http_headers := some { content_type := some "text/html", statuscode := "200" },
    body := "<html>x</html>",
    extract := some { content := "Body text", title := "Extracted" } }

/-- A `json.loads` oracle for a `recording` metadata blob with no pages. -/
def c1_loads : String → Option Metadata := fun s =>
  if s = " \x7b\"type\": \"recording\", \"pages\": []\x7d" then
    some { type? := some "recording" }
  else none

/-- C1 configuration: detection and seed-splitting on, a main page with an
exact timestamp, no expected pages. -/
def c1_args : InitArgs :=
  { main_url := some "http://a/", main_ts := some "20200101000000",
    detect_pages := true, split_seeds := true }

/-- A warcinfo record with `recording` metadata (closing the referrer gate,
as a crawler-produced archive would). -/
def c1_warcinfo : Record :=
  { rec_type := "warcinfo",
    body := "json-metadata: \x7b\"type\": \"recording\", \"pages\": []\x7d" }

/-- The response matching the configured main url and timestamp exactly. -/
def c1_main_record : Record :=
  { rec_type := "response", url := "http://a/", ts := "20200101000000",
    rec_content_type := some "text/plain" }

/-! ## Preservation lemmas

Each per-record phase leaves the configuration fields (and whichever state
fields it does not assign) untouched; these lemmas transport that fact. -/

lemma exact_branch_preserves (st : IndexerState) (r : Record) :
    (main_page_exact_branch st r).main_url = st.main_url ∧
    (main_page_exact_branch st r).main_ts = st.main_ts ∧
    (main_page_exact_branch st r).detect_pages = st.detect_pages ∧
    (main_page_exact_branch st r).detect_referrer_check = st.detect_referrer_check ∧
    (main_page_exact_branch st r).split_seeds = st.split_seeds ∧
    (main_page_exact_branch st r).extract_text = st.extract_text ∧
    (main_page_exact_branch st r).passed_pages_dict = st.passed_pages_dict ∧
    (main_page_exact_branch st r).referrers = st.referrers := by
  unfold main_page_exact_branch
  split
  · by_cases hp : st.passed_pages_dict = ([] : Dict ExpectedPage) <;> simp [hp]
  · simp

lemma urlonly_branch_preserves (st : IndexerState) (r : Record) :
    (main_page_urlonly_branch st r).main_url = st.main_url ∧
    (main_page_urlonly_branch st r).main_ts = st.main_ts ∧
    (main_page_urlonly_branch st r).main_ts_flag = st.main_ts_flag ∧
    (main_page_urlonly_branch st r).detect_pages = st.detect_pages ∧
    (main_page_urlonly_branch st r).detect_referrer_check = st.detect_referrer_check ∧
    (main_page_urlonly_branch st r).split_seeds = st.split_seeds ∧
    (main_page_urlonly_branch st r).extract_text = st.extract_text ∧
    (main_page_urlonly_branch st r).passed_pages_dict = st.passed_pages_dict ∧
    (main_page_urlonly_branch st r).referrers = st.referrers := by
  unfold main_page_urlonly_branch
  split
  · by_cases hp : dictGet st.pages (r.ts ++ "/" ++ r.url) = (none : Option PageEntry) <;>
      simp [hp]
  · simp

lemma expected_match_phase_preserves (st : IndexerState) (r : Record) :
    (expected_match_phase st r).main_url = st.main_url ∧
    (expected_match_phase st r).main_ts = st.main_ts ∧
    (expected_match_phase st r).main_url_flag = st.main_url_flag ∧
    (expected_match_phase st r).main_ts_flag = st.main_ts_flag ∧
    (expected_match_phase st r).main_page = st.main_page ∧
    (expected_match_phase st r).detect_pages = st.detect_pages ∧
    (expected_match_phase st r).detect_referrer_check = st.detect_referrer_check ∧
    (expected_match_phase st r).split_seeds = st.split_seeds ∧
    (expected_match_phase st r).extract_text = st.extract_text ∧
    (expected_match_phase st r).referrers = st.referrers := by
  unfold expected_match_phase
  repeat' split <;> simp

lemma text_extract_block_preserves (st : IndexerState) (r : Record) :
    (text_extract_block st r).main_url = st.main_url ∧
    (text_extract_block st r).main_ts = st.main_ts ∧
    (text_extract_block st r).main_url_flag = st.main_url_flag ∧
    (text_extract_block st r).main_ts_flag = st.main_ts_flag ∧
    (text_extract_block st r).main_page = st.main_page ∧
    (text_extract_block st r).extra_pages = st.extra_pages ∧
    (text_extract_block st r).detect_pages = st.detect_pages ∧
    (text_extract_block st r).detect_referrer_check = st.detect_referrer_check ∧
    (text_extract_block st r).split_seeds = st.split_seeds ∧
    (text_extract_block st r).extract_text = st.extract_text ∧
    (text_extract_block st r).passed_pages_dict = st.passed_pages_dict ∧
    (text_extract_block st r).referrers = st.referrers := by
  simp [text_extract_block]

lemma text_phase_preserves (st : IndexerState) (r : Record) :
    (text_phase st r).main_url = st.main_url ∧
    (text_phase st r).main_ts = st.main_ts ∧
    (text_phase st r).main_url_flag = st.main_url_flag ∧
    (text_phase st r).main_ts_flag = st.main_ts_flag ∧
    (text_phase st r).main_page = st.main_page ∧
    (text_phase st r).detect_pages = st.detect_pages ∧
    (text_phase st r).detect_referrer_check = st.detect_referrer_check ∧
    (text_phase st r).split_seeds = st.split_seeds ∧
    (text_phase st r).extract_text = st.extract_text ∧
    (text_phase st r).passed_pages_dict = st.passed_pages_dict ∧
    (text_phase st r).referrers = st.referrers := by
  unfold text_phase
  repeat' split
  all_goals simp [text_extract_block]
  all_goals repeat' split
  all_goals simp

lemma do_write_detect_preserves (st : IndexerState) (r : Record) :
    (do_write_detect st r).main_url = st.main_url ∧
    (do_write_detect st r).main_ts = st.main_ts ∧
    (do_write_detect st r).main_url_flag = st.main_url_flag ∧
    (do_write_detect st r).main_ts_flag = st.main_ts_flag ∧
    (do_write_detect st r).main_page = st.main_page ∧
    (do_write_detect st r).pages = st.pages ∧
    (do_write_detect st r).extra_pages = st.extra_pages ∧
    (do_write_detect st r).detect_pages = st.detect_pages ∧
    (do_write_detect st r).detect_referrer_check = st.detect_referrer_check ∧
    (do_write_detect st r).split_seeds = st.split_seeds ∧
    (do_write_detect st r).extract_text = st.extract_text ∧
    (do_write_detect st r).passed_pages_dict = st.passed_pages_dict := by
  unfold do_write_detect
  repeat' split
  all_goals simp

lemma parse_warcinfo_preserves (loads : String → Option Metadata)
    (st : IndexerState) (r : Record) (st' : IndexerState)
    (h : parse_warcinfo loads st r = .ok st') :
    st'.main_url = st.main_url ∧
    st'.main_ts = st.main_ts ∧
    st'.main_url_flag = st.main_url_flag ∧
    st'.main_ts_flag = st.main_ts_flag ∧
    st'.main_page = st.main_page ∧
    st'.extra_pages = st.extra_pages ∧
    st'.detect_pages = st.detect_pages ∧
    st'.split_seeds = st.split_seeds ∧
    st'.extract_text = st.extract_text ∧
    st'.passed_pages_dict = st.passed_pages_dict ∧
    st'.referrers = st.referrers := by
  unfold parse_warcinfo at h
  repeat' split at h
  all_goals simp_all
  all_goals (subst h; simp)

lemma exact_branch_flags_eq (st : IndexerState) (r : Record)
    (h : st.main_url_flag = st.main_ts_flag) :
    (main_page_exact_branch st r).main_url_flag = (main_page_exact_branch st r).main_ts_flag := by
  unfold main_page_exact_branch
  split
  · by_cases hp : st.passed_pages_dict = ([] : Dict ExpectedPage) <;> simp [hp]
  · simpa using h

lemma exact_branch_skip_of_ts_none (st : IndexerState) (r : Record)
    (h : st.main_ts = none) : main_page_exact_branch st r = st := by
  unfold main_page_exact_branch
  split
  · rename_i hc
    exact absurd h hc.2.2.1.1
  · rfl

lemma urlonly_skip_of_ts_some (st : IndexerState) (r : Record)
    (h : st.main_ts ≠ none) : main_page_urlonly_branch st r = st := by
  unfold main_page_urlonly_branch
  split
  · rename_i hc
    exact absurd hc.2.2 h
  · rfl

lemma process_index_entry_preserves (loads : String → Option Metadata)
    (st : IndexerState) (r : Record) (st' : IndexerState)
    (h : process_index_entry loads st r = .ok st') :
    st'.main_url = st.main_url ∧ st'.main_ts = st.main_ts ∧
    st'.detect_pages = st.detect_pages ∧ st'.split_seeds = st.split_seeds ∧
    st'.extract_text = st.extract_text := by
  unfold process_index_entry at h
  split at h
  · have hp := parse_warcinfo_preserves loads st r st' h
    tauto
  · split at h
    · cases h
      by_cases hc : r.rec_type = "response" ∨ r.rec_type = "resource" ∨ r.rec_type = "revisit"
      · simp only [hc, if_true]
        obtain ⟨e1, e2, _, _, _, e6, _, e8, e9, _⟩ :=
          expected_match_phase_preserves st r
        obtain ⟨x1, x2, x3, _, x5, x6, _, _⟩ :=
          exact_branch_preserves (expected_match_phase st r) r
        obtain ⟨u1, u2, _, u4, _, u6, u7, _, _⟩ :=
          urlonly_branch_preserves (main_page_exact_branch (expected_match_phase st r) r) r
        have t := text_phase_preserves (main_page_phase (expected_match_phase st r) r) r
        simp only [main_page_phase] at t
        obtain ⟨t1, t2, _, _, _, t6, _, t8, t9, _, _⟩ := t
        have d := do_write_detect_preserves (check_pages_and_text st r) r
        simp only [check_pages_and_text, main_page_phase] at d
        obtain ⟨d1, d2, _, _, _, _, _, d8, _, d10, d11, _⟩ := d
        simp only [check_pages_and_text, main_page_phase]
        exact ⟨d1.trans (t1.trans (u1.trans (x1.trans e1))),
               d2.trans (t2.trans (u2.trans (x2.trans e2))),
               d8.trans (t6.trans (u4.trans (x3.trans e6))),
               d10.trans (t8.trans (u6.trans (x5.trans e8))),
               d11.trans (t9.trans (u7.trans (x6.trans e9)))⟩
      · simp only [hc, if_false]
        obtain ⟨d1, d2, _, _, _, _, _, d8, _, d10, d11, _⟩ := do_write_detect_preserves st r
        exact ⟨d1, d2, d8, d10, d11⟩
    · cases h
      exact ⟨rfl, rfl, rfl, rfl, rfl⟩

lemma process_index_entry_flags (loads : String → Option Metadata)
    (st : IndexerState) (r : Record) (st' : IndexerState)
    (h : process_index_entry loads st r = .ok st') :
    (st.main_ts ≠ none → st.main_url_flag = st.main_ts_flag →
      st'.main_url_flag = st'.main_ts_flag) ∧
    (st.main_ts = none → st'.main_ts_flag = st.main_ts_flag) := by
  unfold process_index_entry at h
  split at h
  · obtain ⟨_, _, p3, p4, _⟩ := parse_warcinfo_preserves loads st r st' h
    exact ⟨fun _ he => by rw [p3, p4]; exact he, fun _ => p4⟩
  · split at h
    · cases h
      by_cases hc : r.rec_type = "response" ∨ r.rec_type = "resource" ∨ r.rec_type = "revisit"
      · simp only [hc, if_true, check_pages_and_text, main_page_phase]
        obtain ⟨_, e2, e3, e4, _⟩ := expected_match_phase_preserves st r
        have d := do_write_detect_preserves (check_pages_and_text st r) r
        simp only [check_pages_and_text, main_page_phase] at d
        obtain ⟨_, _, d3, d4, _⟩ := d
        have t := text_phase_preserves (main_page_phase (expected_match_phase st r) r) r
        simp only [main_page_phase] at t
        obtain ⟨_, _, t3, t4, _⟩ := t
        obtain ⟨_, x2, _⟩ := exact_branch_preserves (expected_match_phase st r) r
        constructor
        · intro hts he
          have hXts : (main_page_exact_branch (expected_match_phase st r) r).main_ts ≠ none := by
            rw [x2, e2]; exact hts
          have hXflags := exact_branch_flags_eq (expected_match_phase st r) r
            (by rw [e3, e4]; exact he)
          have hskip := urlonly_skip_of_ts_some
            (main_page_exact_branch (expected_match_phase st r) r) r hXts
          rw [d3, d4, t3, t4, hskip]
          exact hXflags
        · intro hts
          have hEts : (expected_match_phase st r).main_ts = none := by rw [e2]; exact hts
          have hskipX := exact_branch_skip_of_ts_none (expected_match_phase st r) r hEts
          obtain ⟨_, _, u3, _⟩ := urlonly_branch_preserves
            (main_page_exact_branch (expected_match_phase st r) r) r
          rw [d4, t4, u3, hskipX, e4]
      · simp only [hc, if_false]
        obtain ⟨_, _, d3, d4, _⟩ := do_write_detect_preserves st r
        exact ⟨fun _ he => by rw [d3, d4]; exact he, fun _ => d4⟩
    · cases h
      exact ⟨fun _ he => he, fun _ => rfl⟩

lemma run_records_inv (loads : String → Option Metadata) (P : IndexerState → Prop)
    (hstep : ∀ st r st', process_index_entry loads st r = .ok st' → P st → P st') :
    ∀ (records : List Record) (st st' : IndexerState),
      run_records loads st records = .ok st' → P st → P st' := by
  intro records
  induction records with
  | nil =>
    intro st st' h hP
    unfold run_records at h
    cases h
    exact hP
  | cons r rs ih =>
    intro st st' h hP
    unfold run_records at h
    cases he : process_index_entry loads st r with
    | ok st1 =>
      rw [he] at h
      exact ih st1 st' h (hstep st r st1 he hP)
    | error e =>
      rw [he] at h
      cases h

lemma parse_warcinfo_gate (loads : String → Option Metadata)
    (st : IndexerState) (r : Record) (st' : IndexerState)
    (h : parse_warcinfo loads st r = .ok st') (hw : r.rec_type = "warcinfo") :
    (st'.detect_referrer_check = false ↔
      st.detect_referrer_check = false ∨ closes_referrer_gate loads r = true) := by
  unfold parse_warcinfo at h
  unfold closes_referrer_gate
  repeat' split at h
  all_goals cases h
  all_goals simp_all [Option.isSome_iff_ne_none]

lemma process_index_entry_gate (loads : String → Option Metadata)
    (st : IndexerState) (r : Record) (st' : IndexerState)
    (h : process_index_entry loads st r = .ok st') :
    (st'.detect_referrer_check = false ↔
      st.detect_referrer_check = false ∨ closes_referrer_gate loads r = true) := by
  unfold process_index_entry at h
  split at h
  · exact parse_warcinfo_gate loads st r st' h (by assumption)
  · rename_i hw
    have hcl : closes_referrer_gate loads r = false := by
      simp [closes_referrer_gate, hw]
    split at h
    · cases h
      by_cases hc : r.rec_type = "response" ∨ r.rec_type = "resource" ∨ r.rec_type = "revisit"
      · simp only [hc, if_true, hcl, check_pages_and_text, main_page_phase]
        obtain ⟨_, _, _, _, _, _, e7, _⟩ := expected_match_phase_preserves st r
        obtain ⟨_, _, _, x4, _⟩ := exact_branch_preserves (expected_match_phase st r) r
        obtain ⟨_, _, _, _, u5, _⟩ := urlonly_branch_preserves
          (main_page_exact_branch (expected_match_phase st r) r) r
        have t := text_phase_preserves (main_page_phase (expected_match_phase st r) r) r
        simp only [main_page_phase] at t
        obtain ⟨_, _, _, _, _, _, t7, _⟩ := t
        have d := do_write_detect_preserves (check_pages_and_text st r) r
        simp only [check_pages_and_text, main_page_phase] at d
        obtain ⟨_, _, _, _, _, _, _, _, d9, _⟩ := d
        rw [d9, t7, u5, x4, e7]
        simp
      · simp only [hc, if_false, hcl]
        obtain ⟨_, _, _, _, _, _, _, _, d9, _⟩ := do_write_detect_preserves st r
        rw [d9]
        simp
    · cases h
      simp [hcl]

lemma run_records_gate (loads : String → Option Metadata) :
    ∀ (records : List Record) (st st' : IndexerState),
      run_records loads st records = .ok st' →
      (st'.detect_referrer_check = false ↔
        st.detect_referrer_check = false ∨
          ∃ r ∈ records, closes_referrer_gate loads r = true) := by
  intro records
  induction records with
  | nil =>
    intro st st' h
    unfold run_records at h
    cases h
    simp
  | cons r rs ih =>
    intro st st' h
    unfold run_records at h
    cases he : process_index_entry loads st r with
    | ok st1 =>
      rw [he] at h
      have h1 := process_index_entry_gate loads st r st1 he
      have h2 := ih st1 st' h
      rw [h2, h1]
      constructor
      · rintro ((hg | hg) | ⟨r', hr', hg⟩)
        · exact Or.inl hg
        · exact Or.inr ⟨r, List.mem_cons_self r rs, hg⟩
        · exact Or.inr ⟨r', List.mem_cons_of_mem r hr', hg⟩
      · rintro (hg | ⟨r', hr', hg⟩)
        · exact Or.inl (Or.inl hg)
        · rcases List.mem_cons.mp hr' with rfl | hr'
          · exact Or.inl (Or.inr hg)
          · exact Or.inr ⟨r', hr', hg⟩
    | error e =>
      rw [he] at h
      cases h

/-! ## Dictionary and pruning lemmas -/

lemma dictGet_mem {α : Type} (d : Dict α) (k : String) (v : α)
    (h : dictGet d k = some v) : (k, v) ∈ d := by
  induction d with
  | nil => cases h
  | cons p rest ih =>
    obtain ⟨k', v'⟩ := p
    unfold dictGet at h
    by_cases hk : k' = k
    · simp [hk] at h
      exact hk ▸ h ▸ List.mem_cons_self _ _
    · simp [hk] at h
      exact List.mem_cons_of_mem _ (ih h)

lemma dictGet_dictDel_self {α : Type} (d : Dict α) (k : String) :
    dictGet (dictDel d k) k = none := by
  induction d with
  | nil => rfl
  | cons p rest ih =>
    obtain ⟨k', v'⟩ := p
    unfold dictDel at ih ⊢
    by_cases hk : k' = k
    · simpa [hk] using ih
    · simpa [hk, dictGet] using ih

lemma foldl_dictDel_none {α : Type} (l : List String) :
    ∀ (d : Dict α) (k : String), dictGet d k = none →
      dictGet (l.foldl dictDel d) k = none := by
  induction l with
  | nil => intro d k h; simpa using h
  | cons a rest ih =>
    intro d k h
    simp only [List.foldl_cons]
    apply ih
    by_cases ha : a = k
    · exact ha ▸ dictGet_dictDel_self d a
    · induction d with
      | nil => rfl
      | cons p r ihh =>
        obtain ⟨k', v'⟩ := p
        unfold dictGet at h
        by_cases hk : k' = k
        · simp [hk] at h
        · simp [hk] at h
          unfold dictDel at ihh ⊢
          by_cases hka : k' = a <;> simp [hka, dictGet, hk] <;>
            simpa [dictDel, dictGet, hk] using ihh h

lemma foldl_dictDel_mem {α : Type} (l : List String) :
    ∀ (d : Dict α) (k : String), k ∈ l →
      dictGet (l.foldl dictDel d) k = none := by
  induction l with
  | nil => intro d k h; cases h
  | cons a rest ih =>
    intro d k h
    simp only [List.foldl_cons]
    rcases List.mem_cons.mp h with rfl | h
    · exact foldl_dictDel_none rest (dictDel d k) k (dictGet_dictDel_self d k)
    · exact ih (dictDel d a) k h

lemma prune_pages_removes (pgs : Dict PageEntry) (refs : List String)
    (id : String) (e : PageEntry) (h : dictGet pgs id = some e)
    (hu : refs.contains e.url = false) :
    dictGet (prune_pages pgs refs) id = none := by
  unfold prune_pages
  apply foldl_dictDel_mem
  have hm : (id, e) ∈ pgs.filter (fun p => !(refs.contains p.2.url)) := by
    rw [List.mem_filter]
    exact ⟨dictGet_mem pgs id e h, by rw [hu]; rfl⟩
  exact List.mem_map.mpr ⟨(id, e), hm, rfl⟩

lemma check_http_and_https_mem (url ts : String) (d : Dict ExpectedPage)
    (m : String) (h : check_http_and_https url ts d = some m) :
    (dictGet d m).isSome = true := by
  unfold check_http_and_https at h
  by_cases h1 : (dictGet d (ts ++ "/" ++ url)).isSome = true
  · rw [if_pos h1] at h
    injection h with h
    exact h ▸ h1
  · rw [if_neg h1] at h
    by_cases s1 : strStartsWith url "http://" = true
    · rw [if_pos s1] at h
      simp only [] at h
      by_cases h2 : (dictGet d (ts ++ "/" ++ ("https://" ++ url.drop 7))).isSome = true
      · rw [if_pos h2] at h
        injection h with h
        exact h ▸ h2
      · rw [if_neg h2] at h
        cases h
    · rw [if_neg s1] at h
      by_cases s2 : strStartsWith url "https://" = true
      · rw [if_pos s2] at h
        simp only [] at h
        by_cases h2 : (dictGet d (ts ++ "/" ++ ("http://" ++ url.drop 8))).isSome = true
        · rw [if_pos h2] at h
          injection h with h
          exact h ▸ h2
        · rw [if_neg h2] at h
          cases h
      · rw [if_neg s2] at h
        cases h

/-! ## post_scan characterization lemmas -/

lemma prune_step_preserves (st : IndexerState) :
    (prune_step st).main_url = st.main_url ∧
    (prune_step st).main_ts = st.main_ts ∧
    (prune_step st).main_url_flag = st.main_url_flag ∧
    (prune_step st).main_ts_flag = st.main_ts_flag ∧
    (prune_step st).main_page = st.main_page ∧
    (prune_step st).extra_pages = st.extra_pages ∧
    (prune_step st).passed_pages_dict = st.passed_pages_dict ∧
    (prune_step st).split_seeds = st.split_seeds := by
  unfold prune_step
  split <;> simp

lemma split_step_preserves (st : IndexerState) :
    (split_step st).main_url = st.main_url ∧
    (split_step st).main_ts = st.main_ts ∧
    (split_step st).main_url_flag = st.main_url_flag ∧
    (split_step st).main_ts_flag = st.main_ts_flag := by
  unfold split_step
  repeat' split
  all_goals simp

lemma post_scan_collections_preserves (st : IndexerState) :
    (post_scan_collections st).main_url = st.main_url ∧
    (post_scan_collections st).main_ts = st.main_ts ∧
    (post_scan_collections st).main_url_flag = st.main_url_flag ∧
    (post_scan_collections st).main_ts_flag = st.main_ts_flag := by
  unfold post_scan_collections
  split
  · obtain ⟨s1, s2, s3, s4⟩ := split_step_preserves (prune_step st)
    obtain ⟨p1, p2, p3, p4, _⟩ := prune_step_preserves st
    exact ⟨s1.trans p1, s2.trans p2, s3.trans p3, s4.trans p4⟩
  · exact ⟨rfl, rfl, rfl, rfl⟩

lemma post_scan_err_ts (st : IndexerState)
    (h1 : st.main_url_flag = some false) (h2 : st.main_ts_flag = some false) :
    post_scan st = .error (.tsNotFound st.main_ts st.main_url) := by
  obtain ⟨c1, c2, c3, c4⟩ := post_scan_collections_preserves st
  unfold post_scan
  rw [if_pos ⟨c3.trans h1, c4.trans h2⟩, c1, c2]

lemma post_scan_err_url (st : IndexerState)
    (h1 : st.main_url_flag = some false) (h2 : st.main_ts_flag ≠ some false) :
    post_scan st = .error (.urlNotFound st.main_url) := by
  obtain ⟨c1, c2, c3, c4⟩ := post_scan_collections_preserves st
  unfold post_scan
  rw [if_neg (by rw [c3, c4]; exact fun hc => h2 hc.2),
    if_pos (c3.trans h1), c1]

lemma post_scan_ok (st : IndexerState) (h : st.main_url_flag ≠ some false) :
    post_scan st = .ok (post_scan_collections st) := by
  obtain ⟨c1, c2, c3, c4⟩ := post_scan_collections_preserves st
  unfold post_scan
  rw [if_neg (by rw [c3]; exact fun hc => h hc.1), if_neg (by rw [c3]; exact h)]

lemma post_scan_nosplit (st : IndexerState)
    (hd : st.detect_pages = true) (hs : st.split_seeds = false)
    (hf : st.main_url_flag ≠ some false) :
    post_scan st = .ok { st with
      pages := if st.detect_referrer_check then prune_pages st.pages st.referrers
               else st.pages } := by
  rw [post_scan_ok st hf]
  unfold post_scan_collections split_step prune_step
  cases st
  simp_all
  repeat' split
  all_goals simp_all

lemma post_scan_split (st : IndexerState) (mid : String) (me : PageEntry)
    (hd : st.detect_pages = true) (hp : st.passed_pages_dict = [])
    (hs : st.split_seeds = true) (hm : st.main_page = some (mid, me))
    (hf : st.main_url_flag ≠ some false) :
    post_scan st = .ok { st with
      pages := [(mid, me)],
      extra_pages := if st.detect_referrer_check then prune_pages st.pages st.referrers
                     else st.pages } := by
  rw [post_scan_ok st hf]
  unfold post_scan_collections split_step prune_step
  cases st
  simp_all
  repeat' split
  all_goals simp_all

/-! ## Constructor and driver lemmas -/

lemma WACZIndexer_init_fields (a : InitArgs) :
    (WACZIndexer_init a).main_ts = a.main_ts ∧
    (WACZIndexer_init a).detect_pages = a.detect_pages ∧
    (WACZIndexer_init a).split_seeds = a.split_seeds ∧
    (WACZIndexer_init a).passed_pages_dict = a.passed_pages_dict ∧
    (WACZIndexer_init a).detect_referrer_check = true ∧
    (WACZIndexer_init a).pages = [] := by
  unfold WACZIndexer_init
  exact ⟨rfl, rfl, rfl, rfl, rfl, rfl⟩

lemma WACZIndexer_init_flags (a : InitArgs) (h : pyTruthy a.main_url) :
    (WACZIndexer_init a).main_url_flag = some false ∧
    (WACZIndexer_init a).main_ts_flag = some false := by
  obtain ⟨h1, h2⟩ := h
  unfold WACZIndexer_init
  constructor <;> simp [if_pos (And.intro h1 h2)]

lemma process_all_eq_of_run (loads : String → Option Metadata) (a : InitArgs)
    (records : List Record) (st : IndexerState)
    (h : run_records loads (WACZIndexer_init a) records = .ok st) :
    process_all loads a records = post_scan st := by
  unfold process_all
  rw [h]

/-! ## Claim theorems -/

/-- C2: for every configuration supplying a main-page url (truthy) with a
required timestamp, if after the full scan either found-flag is still false
then `process_all` raises the unmatched-main-page `ValueError` naming the
configured timestamp and url; when only a url was required (timestamp is
Python `None`) and its flag is still false it fails analogously; and when the
url flag (hence, with a required timestamp, both flags) is true, no such
error is raised and `process_all` returns the post-scan state. -/
theorem C2_main_page_validation :
    (∀ (loads : String → Option Metadata) (a : InitArgs) (records : List Record)
       (st : IndexerState),
       pyTruthy a.main_url → pyTruthy a.main_ts →
       run_records loads (WACZIndexer_init a) records = .ok st →
       (st.main_url_flag = some false ∨ st.main_ts_flag = some false) →
       process_all loads a records = .error (.tsNotFound st.main_ts st.main_url)) ∧
    (∀ (loads : String → Option Metadata) (a : InitArgs) (records : List Record)
       (st : IndexerState),
       pyTruthy a.main_url → a.main_ts = none →
       run_records loads (WACZIndexer_init a) records = .ok st →
       st.main_url_flag = some false →
       process_all loads a records = .error (.tsNotFound st.main_ts st.main_url)) ∧
    (∀ (loads : String → Option Metadata) (a : InitArgs) (records : List Record)
       (st : IndexerState),
       run_records loads (WACZIndexer_init a) records = .ok st →
       st.main_url_flag = some true →
       ∃ st', process_all loads a records = .ok st') := by
  refine ⟨?_, ?_, ?_⟩
  · intro loads a records st hu ht hrun hflag
    have hinv := run_records_inv loads
      (fun s => s.main_ts = a.main_ts ∧ s.main_url_flag = s.main_ts_flag)
      (fun s r s' hok hP => by
        obtain ⟨_, p2, _⟩ := process_index_entry_preserves loads s r s' hok
        obtain ⟨f1, _⟩ := process_index_entry_flags loads s r s' hok
        exact ⟨p2.trans hP.1,
          f1 (by rw [hP.1]; exact ht.1) hP.2⟩)
      records (WACZIndexer_init a) st hrun
      ⟨(WACZIndexer_init_fields a).1,
        by
          obtain ⟨g1, g2⟩ := WACZIndexer_init_flags a hu
          rw [g1, g2]⟩
    obtain ⟨hts, heq⟩ := hinv
    have hboth : st.main_url_flag = some false ∧ st.main_ts_flag = some false := by
      rcases hflag with hf | hf
      · exact ⟨hf, heq ▸ hf⟩
      · exact ⟨heq.trans hf, hf⟩
    rw [process_all_eq_of_run loads a records st hrun]
    exact post_scan_err_ts st hboth.1 hboth.2
  · intro loads a records st hu ht hrun hflag
    have hinv := run_records_inv loads
      (fun s => s.main_ts = none ∧ s.main_ts_flag = some false)
      (fun s r s' hok hP => by
        obtain ⟨_, p2, _⟩ := process_index_entry_preserves loads s r s' hok
        obtain ⟨_, f2⟩ := process_index_entry_flags loads s r s' hok
        exact ⟨p2.trans hP.1, (f2 hP.1).trans hP.2⟩)
      records (WACZIndexer_init a) st hrun
      ⟨(WACZIndexer_init_fields a).1.trans ht, (WACZIndexer_init_flags a hu).2⟩
    rw [process_all_eq_of_run loads a records st hrun]
    exact post_scan_err_ts st hflag hinv.2
  · intro loads a records st hrun hflag
    rw [process_all_eq_of_run loads a records st hrun]
    exact ⟨post_scan_collections st, post_scan_ok st (by rw [hflag]; exact fun h => by cases h)⟩

/-- Witness for C2: a configuration requiring timestamp `20200101000000` at
url `http://a/` scanned over no records leaves both flags false and fails
with the timestamp error; the same configuration scanned over the one record
that matches exactly ends with both flags true and succeeds. -/
theorem C2_main_page_validation_witness :
    process_all (fun _ => none)
        { main_url := some "http://a/", main_ts := some "20200101000000" } []
      = .error (.tsNotFound (some "20200101000000") (some "http://a/")) ∧
    (∃ st', process_all (fun _ => none)
        { main_url := some "http://a/", main_ts := some "20200101000000" }
        [{ rec_type := "response", url := "http://a/", ts := "20200101000000",
           rec_content_type := some "text/plain" }] = .ok st') := by
  constructor
  · exact C2_main_page_validation.1 (fun _ => none)
      { main_url := some "http://a/", main_ts := some "20200101000000" } []
      (WACZIndexer_init { main_url := some "http://a/", main_ts := some "20200101000000" })
      (by decide) (by decide) rfl (Or.inl (by decide))
  · exact C2_main_page_validation.2.2 (fun _ => none)
      { main_url := some "http://a/", main_ts := some "20200101000000" }
      [{ rec_type := "response", url := "http://a/", ts := "20200101000000",
         rec_content_type := some "text/plain" }] _ rfl (by decide)

lemma urlunsplit_slash_length (p : SplitResult) :
    0 < (urlunsplit { p with path := "/" }).length := by
  unfold urlunsplit
  repeat' split
  all_goals simp [String.length_append,
    show (":" : String).length = 1 from rfl,
    show ("/" : String).length = 1 from rfl,
    show ("//" : String).length = 2 from rfl,
    show ("?" : String).length = 1 from rfl,
    show ("#" : String).length = 1 from rfl]
  all_goals
    repeat' split
  all_goals simp [String.length_append,
    show ("/" : String).length = 1 from rfl,
    show ("//" : String).length = 2 from rfl]

lemma urlunsplit_slash_ne_empty (p : SplitResult) :
    urlunsplit { p with path := "/" } ≠ "" := by
  intro h
  have := urlunsplit_slash_length p
  rw [h] at this
  simp at this

/-- C10: a configured main-page url whose parsed path component is empty is
normalized by the constructor to carry path `"/"`; the normalized form is what
the scan state carries throughout (so every main-page url comparison sees it),
and `generate_datapackage` publishes exactly it as `mainPageURL`. -/
theorem C10_main_url_normalization (a : InitArgs) (u : String)
    (ha : a.main_url = some u) (hpath : (urlsplit u).path = "") :
    (WACZIndexer_init a).main_url = some (urlunsplit { urlsplit u with path := "/" }) ∧
    (∀ (loads : String → Option Metadata) (records : List Record) (st : IndexerState),
      run_records loads (WACZIndexer_init a) records = .ok st →
      st.main_url = some (urlunsplit { urlsplit u with path := "/" })) ∧
    (∀ (hashHex : String → String → String) (tsToIso : String → String)
       (nowStr : String) (res : ResArgs) (entries : List ZipEntry) (st : IndexerState),
      st.main_url = some (urlunsplit { urlsplit u with path := "/" }) →
      (generate_datapackage hashHex tsToIso nowStr res entries st).1.mainPageURL =
        some (urlunsplit { urlsplit u with path := "/" })) := by
  have hinit : (WACZIndexer_init a).main_url
      = some (urlunsplit { urlsplit u with path := "/" }) := by
    unfold WACZIndexer_init
    simp only [ha]
    rw [if_pos hpath]
  refine ⟨hinit, ?_, ?_⟩
  · intro loads records st hrun
    exact run_records_inv loads
      (fun s => s.main_url = some (urlunsplit { urlsplit u with path := "/" }))
      (fun s r s' hok hP => by
        obtain ⟨p1, _⟩ := process_index_entry_preserves loads s r s' hok
        exact p1.trans hP)
      records (WACZIndexer_init a) st hrun hinit
  · intro hashHex tsToIso nowStr res entries st hst
    unfold generate_datapackage
    simp only []
    rw [if_pos (show pyTruthy st.main_url by
      rw [hst]
      exact ⟨Option.some_ne_none _,
        fun h => urlunsplit_slash_ne_empty (urlsplit u) (Option.some.inj h)⟩)]
    exact hst

/-- Witness for C10: `http://example.com` has an empty parsed path and is
normalized to `http://example.com/` — a value different from the caller's
literal — and a state carrying the normalized url publishes it as the
manifest `mainPageURL`. -/
theorem C10_main_url_normalization_witness :
    (WACZIndexer_init { main_url := some "http://example.com" }).main_url
      = some "http://example.com/" ∧
    some "http://example.com/" ≠ some "http://example.com" ∧
    (generate_datapackage (fun _ _ => "h") (fun t => t) "now" {} []
        { main_url := some "http://example.com/" }).1.mainPageURL
      = some "http://example.com/" := by
  have h := C10_main_url_normalization { main_url := some "http://example.com" }
    "http://example.com" rfl (by decide)
  have hu : urlunsplit { urlsplit "http://example.com" with path := "/" }
      = "http://example.com/" := by decide
  refine ⟨?_, by decide, ?_⟩
  · rw [h.1, hu]
  · have h3 := h.2.2 (fun _ _ => "h") (fun t => t) "now" {} []
      { main_url := some "http://example.com/" } (by rw [hu])
    rw [hu] at h3
    exact h3

/-- C3 (as written, refuted): the claim says a detected page whose url is not
in the referrer set is removed if and only if no collection/recording
metadata was observed.  Here the only metadata record has the unrecognized
type `"other"` — so no collection/recording metadata was observed and the
referrer set stays empty — yet the page survives pruning, because
`parse_warcinfo` closes the referrer-pruning gate for metadata of any type. -/
theorem C3_referrer_pruning_counterexample :
    (match process_all c3_loads c3_args [c3_warcinfo, c3_response] with
     | .ok st => (dictGet st.pages "20200101000001/http://p/").isSome
                  && st.referrers.isEmpty && !st.detect_referrer_check
     | .error _ => false) = true := by decide

/-- C3 amended: with page detection on and seed-splitting off, a page entry
whose url was never recorded as a referrer is removed during post-scan
pruning if and only if no record of the scan carried a `json-metadata` blob
with a `"type"` key — metadata of any type, recognized or not, closes the
referrer-pruning gate for the remainder of the scan. -/
theorem C3_referrer_pruning_amended (loads : String → Option Metadata)
    (a : InitArgs) (records : List Record) (st st' : IndexerState)
    (id : String) (e : PageEntry)
    (hd : a.detect_pages = true) (hs : a.split_seeds = false)
    (hrun : run_records loads (WACZIndexer_init a) records = .ok st)
    (hpost : post_scan st = .ok st')
    (he : dictGet st.pages id = some e)
    (hu : st.referrers.contains e.url = false) :
    (dictGet st'.pages id = none ↔
      ∀ r ∈ records, closes_referrer_gate loads r = false) := by
  have hcfg := run_records_inv loads
    (fun s => s.detect_pages = a.detect_pages ∧ s.split_seeds = a.split_seeds)
    (fun s r s' hok hP => by
      obtain ⟨_, _, p3, p4, _⟩ := process_index_entry_preserves loads s r s' hok
      exact ⟨p3.trans hP.1, p4.trans hP.2⟩)
    records (WACZIndexer_init a) st hrun
    ⟨(WACZIndexer_init_fields a).2.1, (WACZIndexer_init_fields a).2.2.1⟩
  have hgate := run_records_gate loads records (WACZIndexer_init a) st hrun
  rw [(WACZIndexer_init_fields a).2.2.2.2.1] at hgate
  have hf : st.main_url_flag ≠ some false := by
    intro hflag
    by_cases hts : st.main_ts_flag = some false
    · rw [post_scan_err_ts st hflag hts] at hpost
      cases hpost
    · rw [post_scan_err_url st hflag hts] at hpost
      cases hpost
  rw [post_scan_nosplit st (hcfg.1.trans hd) (hcfg.2.trans hs) hf] at hpost
  have hst' : st' = { st with
      pages := if st.detect_referrer_check then prune_pages st.pages st.referrers
               else st.pages } := by
    injection hpost with h
    exact h.symm
  subst hst'
  cases hgb : st.detect_referrer_check with
  | true =>
    rw [if_pos (rfl : (true : Bool) = true)]
    constructor
    · intro _ r hr
      by_cases hc : closes_referrer_gate loads r = true
      · exfalso
        have hcl : st.detect_referrer_check = false := hgate.mpr (Or.inr ⟨r, hr, hc⟩)
        rw [hgb] at hcl
        cases hcl
      · simpa using hc
    · intro _
      exact prune_pages_removes st.pages st.referrers id e he hu
  | false =>
    rw [if_neg (by decide : ¬((false : Bool) = true))]
    constructor
    · intro hnone
      rw [he] at hnone
      cases hnone
    · intro hall
      exfalso
      rcases hgate.mp hgb with hinit | ⟨r, hr, hc⟩
      · cases hinit
      · rw [hall r hr] at hc
        cases hc

/-- Witness for the amended C3: a lone detected HTML page, with no metadata
record anywhere in the scan, is pruned away because its url is not in the
referrer set and the gate stayed open. -/
theorem C3_referrer_pruning_amended_witness :
    dictGet (okState (process_all c3_loads c3_args [c3_response])).pages
      "20200101000001/http://p/" = none := by
  exact (C3_referrer_pruning_amended c3_loads c3_args [c3_response]
    (okState (run_records c3_loads (WACZIndexer_init c3_args) [c3_response]))
    (okState (process_all c3_loads c3_args [c3_response]))
    "20200101000001/http://p/"
    { timestamp := "20200101000001", url := "http://p/", title := some "http://p/" }
    rfl rfl rfl rfl (by decide) (by decide)).mpr (by decide)

/-- C4 (as written, refuted): a collection-info record whose `json-metadata`
blob is invalid JSON is not silently ignored — `json.loads` raises inside
`parse_warcinfo`, nothing catches it, and the exception propagates out of the
per-record callback and aborts the scan. -/
theorem C4_malformed_metadata_counterexample :
    process_index_entry c4_loads {} c4_warcinfo = .error .jsonDecodeError ∧
    run_records c4_loads {} [c4_warcinfo] = .error .jsonDecodeError := by
  constructor <;> rfl

/-- C4 amended: a collection-info record with no `json-metadata` line at all,
or whose blob parses to metadata lacking a `"type"` key, is silently ignored
with the parser state left exactly unchanged; but a `json-metadata` line
whose blob fails JSON parsing raises, and the exception propagates out of
`parse_warcinfo` uncaught. -/
theorem C4_malformed_metadata_amended :
    (∀ (loads : String → Option Metadata) (lines : List String),
      (∀ line ∈ lines, (pySplit1 line).headD "" ≠ "json-metadata") →
      warcinfo_scan_lines loads none lines = .ok none) ∧
    (∀ (loads : String → Option Metadata) (st : IndexerState) (r : Record),
      warcinfo_scan_lines loads none (splitOnChar '\n' (pyRstrip r.body)) = .ok none →
      parse_warcinfo loads st r = .ok st) ∧
    (∀ (loads : String → Option Metadata) (st : IndexerState) (r : Record)
       (m : Metadata),
      warcinfo_scan_lines loads none (splitOnChar '\n' (pyRstrip r.body)) = .ok (some m) →
      m.type? = none →
      parse_warcinfo loads st r = .ok st) ∧
    (∀ (loads : String → Option Metadata) (st : IndexerState) (r : Record)
       (e : ScanError),
      warcinfo_scan_lines loads none (splitOnChar '\n' (pyRstrip r.body)) = .error e →
      parse_warcinfo loads st r = .error e) := by
  refine ⟨?_, ?_, ?_, ?_⟩
  · intro loads lines h
    induction lines with
    | nil => rfl
    | cons line rest ih =>
      have hline := h line (List.mem_cons_self _ _)
      have hrest := ih (fun l hl => h l (List.mem_cons_of_mem _ hl))
      unfold warcinfo_scan_lines
      cases hsp : pySplit1 line with
      | nil => exact hrest
      | cons k tl =>
        cases tl with
        | nil =>
          rw [hsp] at hline
          simp only [List.headD] at hline
          simpa [hline] using hrest
        | cons blob tl2 =>
          cases tl2 with
          | nil =>
            rw [hsp] at hline
            simp only [List.headD] at hline
            simpa [hline] using hrest
          | cons c tl3 => exact hrest
  · intro loads st r h
    unfold parse_warcinfo
    rw [h]
  · intro loads st r m h ht
    unfold parse_warcinfo
    rw [h]
    simp [ht]
  · intro loads st r e h
    unfold parse_warcinfo
    rw [h]

/-- Witness for the amended C4: a warcinfo body with only ordinary key/value
lines leaves the state untouched, and the invalid-JSON record raises. -/
theorem C4_malformed_metadata_amended_witness :
    parse_warcinfo c4_loads {} { rec_type := "warcinfo", body := "software: x" } = .ok {} ∧
    parse_warcinfo c4_loads {} c4_warcinfo = .error .jsonDecodeError := by
  constructor
  · exact C4_malformed_metadata_amended.2.1 c4_loads {}
      { rec_type := "warcinfo", body := "software: x" }
      (C4_malformed_metadata_amended.1 c4_loads
        (splitOnChar '\n' (pyRstrip "software: x")) (by decide))
  · exact C4_malformed_metadata_amended.2.2.2 c4_loads {} c4_warcinfo
      .jsonDecodeError (by decide)

lemma dictGet_map_replace {α : Type} (d : Dict α) (k : String) (v : α) :
    dictGet (d.map (fun p => if p.1 = k then (k, v) else p)) k
      = if d.any (fun p => p.1 == k) then some v else none := by
  induction d with
  | nil => rfl
  | cons p rest ih =>
    obtain ⟨k', v'⟩ := p
    by_cases hk : k' = k
    · subst hk
      simp only [List.map_cons, List.any_cons]
      rw [if_pos trivial]
      unfold dictGet
      rw [if_pos rfl]
      simp
    · have hkb : (k' == k) = false := by simp [hk]
      simp only [List.map_cons, List.any_cons]
      rw [if_neg hk]
      unfold dictGet
      rw [if_neg hk, ih]
      simp only [hkb, Bool.false_or]

lemma dictGet_append_absent {α : Type} (d : Dict α) (k : String) (v : α)
    (h : d.any (fun p => p.1 == k) = false) :
    dictGet (d ++ [(k, v)]) k = some v := by
  induction d with
  | nil => simp [dictGet]
  | cons p rest ih =>
    obtain ⟨k', v'⟩ := p
    rw [List.any_cons] at h
    have hk : (k' == k) = false := by
      cases hkk : (k' == k) <;> simp [hkk] at h ⊢
    have hrest : rest.any (fun p => p.1 == k) = false := by
      cases hr : rest.any (fun p => p.1 == k) <;> simp [hk, hr] at h ⊢
    have hk' : k' ≠ k := by simpa using hk
    simpa [dictGet, hk'] using ih hrest

lemma dictGet_dictSet_self {α : Type} (d : Dict α) (k : String) (v : α) :
    dictGet (dictSet d k v) k = some v := by
  unfold dictSet
  by_cases h : d.any (fun p => p.1 == k) = true
  · rw [if_pos h, dictGet_map_replace, if_pos h]
  · have h' : d.any (fun p => p.1 == k) = false := by
      cases hh : d.any (fun p => p.1 == k)
      · rfl
      · exact absurd hh h
    rw [if_neg (by rw [h']; decide)]
    exact dictGet_append_absent d k v h'

/-- C5 (as written, refuted): with an ExpectedPagesTable supplied by the
caller (and not matching this record) and no timestamp configured, the
url-match branch still synthesizes a `seed: true` PageEntry into `pages`,
because lines 245-256 never consult `passed_pages_dict`. -/
theorem C5_main_page_counterexample :
    (WACZIndexer_init c5_args).passed_pages_dict ≠ [] ∧
    (match process_index_entry (fun _ => none) (WACZIndexer_init c5_args) c5_record with
     | .ok st =>
        decide (dictGet st.pages "20200101000000/http://a/" =
          some { timestamp := "20200101000000", url := "http://a/",
                 title := some "http://a/", seed := true })
        && decide (st.passed_pages_dict ≠ []) && decide (st.main_url_flag = some true)
     | .error _ => false) = true := by
  exact ⟨by decide, by decide⟩

/-- C5 amended: a record matching the MainPageSpec sets the found-flag(s):
with an exact truthy url/timestamp match both flags are set, and the seed
entry is synthesized (overwriting `pages[id]` and `main_page`) exactly when
the expected-pages table is empty at that moment; with no timestamp (Python
`None`) the url flag is set and the seed entry is synthesized whenever the id
is not already present — regardless of the expected-pages table — while a
prior page at the same id is left untouched. -/
theorem C5_main_page_matching_amended (st : IndexerState) (r : Record) :
    (pyTruthy st.main_url → st.main_url = some r.url →
     pyTruthy st.main_ts → st.main_ts = some r.ts →
      (main_page_phase st r).main_url_flag = some true ∧
      (main_page_phase st r).main_ts_flag = some true ∧
      (st.passed_pages_dict = [] →
        dictGet (main_page_phase st r).pages (r.ts ++ "/" ++ r.url) =
          some { timestamp := r.ts, url := r.url, title := some r.url, seed := true } ∧
        (main_page_phase st r).main_page =
          some (r.ts ++ "/" ++ r.url,
            { timestamp := r.ts, url := r.url, title := some r.url, seed := true })) ∧
      (st.passed_pages_dict ≠ [] →
        (main_page_phase st r).pages = st.pages ∧
        (main_page_phase st r).main_page = st.main_page)) ∧
    (pyTruthy st.main_url → st.main_url = some r.url → st.main_ts = none →
      (main_page_phase st r).main_url_flag = some true ∧
      (dictGet st.pages (r.ts ++ "/" ++ r.url) = none →
        dictGet (main_page_phase st r).pages (r.ts ++ "/" ++ r.url) =
          some { timestamp := r.ts, url := r.url, title := some r.url, seed := true }) ∧
      (dictGet st.pages (r.ts ++ "/" ++ r.url) ≠ none →
        (main_page_phase st r).pages = st.pages)) := by
  constructor
  · intro h1 h2 h3 h4
    unfold main_page_phase
    have hXts : (main_page_exact_branch st r).main_ts ≠ none := by
      rw [(exact_branch_preserves st r).2.1, h4]
      exact Option.some_ne_none _
    rw [urlonly_skip_of_ts_some (main_page_exact_branch st r) r hXts]
    unfold main_page_exact_branch
    rw [if_pos ⟨h1, h2, h3, h4⟩]
    by_cases hp : st.passed_pages_dict = ([] : Dict ExpectedPage)
    · rw [if_pos (by simpa using hp)]
      refine ⟨rfl, rfl, fun _ => ⟨?_, rfl⟩, fun hne => absurd hp hne⟩
      exact dictGet_dictSet_self _ _ _
    · rw [if_neg (by simpa using hp)]
      exact ⟨rfl, rfl, fun he => absurd he hp, fun _ => ⟨rfl, rfl⟩⟩
  · intro h1 h2 h3
    unfold main_page_phase
    rw [exact_branch_skip_of_ts_none st r h3]
    unfold main_page_urlonly_branch
    rw [if_pos ⟨h1, h2, h3⟩]
    by_cases hg : dictGet st.pages (r.ts ++ "/" ++ r.url) = (none : Option PageEntry)
    · rw [if_pos (by simpa using hg)]
      exact ⟨rfl, fun _ => dictGet_dictSet_self _ _ _, fun hne => absurd hg hne⟩
    · rw [if_neg (by simpa using hg)]
      exact ⟨rfl, fun he => absurd he hg, fun _ => rfl⟩

/-- Witness for the amended C5: the C5 inputs exercise the no-timestamp
branch — the url flag is set and the seed entry lands in `pages` even though
the expected-pages table is nonempty. -/
theorem C5_main_page_matching_amended_witness :
    (main_page_phase (WACZIndexer_init c5_args) c5_record).main_url_flag = some true ∧
    dictGet (main_page_phase (WACZIndexer_init c5_args) c5_record).pages
        "20200101000000/http://a/" =
      some { timestamp := "20200101000000", url := "http://a/",
             title := some "http://a/", seed := true } := by
  have h := (C5_main_page_matching_amended (WACZIndexer_init c5_args) c5_record).2
    (by decide) (by decide) (by decide)
  exact ⟨h.1, h.2.1 (by decide)⟩

/-- C6: a record matching an ExpectedPagesTable entry (directly or through
the http/https swap) claims an entry that was present, removes exactly it at
the moment of the match, and afterwards no record — same id or scheme
variant — can match that entry again: the resolver only ever returns keys
still present in the table. -/
theorem C6_expected_pages_consumed (st : IndexerState) (r : Record) (m : String)
    (h : check_http_and_https r.url r.ts st.passed_pages_dict = some m) :
    (dictGet st.passed_pages_dict m).isSome = true ∧
    (expected_match_phase st r).passed_pages_dict = dictDel st.passed_pages_dict m ∧
    dictGet (expected_match_phase st r).passed_pages_dict m = none ∧
    (∀ url' ts', check_http_and_https url' ts'
        (expected_match_phase st r).passed_pages_dict ≠ some m) ∧
    (check_pages_and_text st r).passed_pages_dict = dictDel st.passed_pages_dict m := by
  have hmem := check_http_and_https_mem r.url r.ts st.passed_pages_dict m h
  obtain ⟨ip, hip⟩ := Option.isSome_iff_exists.mp hmem
  have hdel : (expected_match_phase st r).passed_pages_dict
      = dictDel st.passed_pages_dict m := by
    unfold expected_match_phase
    simp only [h, hip]
    split <;> rfl
  have hgone : dictGet (expected_match_phase st r).passed_pages_dict m = none := by
    rw [hdel]
    exact dictGet_dictDel_self st.passed_pages_dict m
  refine ⟨hmem, hdel, hgone, ?_, ?_⟩
  · intro url' ts' hcontra
    have := check_http_and_https_mem url' ts'
      (expected_match_phase st r).passed_pages_dict m hcontra
    rw [hgone] at this
    cases this
  · have t := text_phase_preserves (main_page_phase (expected_match_phase st r) r) r
    simp only [main_page_phase] at t
    obtain ⟨_, _, _, _, _, _, _, _, _, t10, _⟩ := t
    obtain ⟨_, _, _, _, _, _, x7, _⟩ := exact_branch_preserves (expected_match_phase st r) r
    obtain ⟨_, _, _, _, _, _, _, u8, _⟩ := urlonly_branch_preserves
      (main_page_exact_branch (expected_match_phase st r) r) r
    unfold check_pages_and_text main_page_phase
    rw [t10, u8, x7, hdel]

/-- Witness for C6: the `https` record claims the `http` table entry; the
table is empty afterwards and re-resolving the same record finds nothing. -/
theorem C6_expected_pages_consumed_witness :
    check_http_and_https c6_record.url c6_record.ts c6_state.passed_pages_dict
      = some "20200101000000/http://a/" ∧
    (expected_match_phase c6_state c6_record).passed_pages_dict = [] ∧
    check_http_and_https c6_record.url c6_record.ts
        (expected_match_phase c6_state c6_record).passed_pages_dict
      ≠ some "20200101000000/http://a/" := by
  refine ⟨by decide, by decide, ?_⟩
  exact (C6_expected_pages_consumed c6_state c6_record "20200101000000/http://a/"
    (by decide)).2.2.2.1 c6_record.url c6_record.ts

lemma dictGet_dictUpdate {α : Type} (d : Dict α) (k : String) (f : α → α) :
    dictGet (dictUpdate d k f) k = (dictGet d k).map f := by
  unfold dictUpdate
  induction d with
  | nil => rfl
  | cons p rest ih =>
    obtain ⟨k', v'⟩ := p
    by_cases hk : k' = k
    · subst hk
      simp only [List.map_cons, List.any_cons]
      rw [if_pos trivial]
      unfold dictGet
      rw [if_pos rfl, if_pos rfl]
      rfl
    · simp only [List.map_cons, List.any_cons]
      rw [if_neg hk]
      unfold dictGet
      rw [if_neg hk, if_neg hk, ih]

/-- C9: once a page's title differs from the record's bare url, a successful
text extraction for that page stores the extracted body text (when truthy)
but leaves the title untouched; and the extracted title is written only while
the stored title still equals the url default. -/
theorem C9_title_preservation (st : IndexerState) (r : Record) (e : PageEntry)
    (doc : ExtractDoc)
    (hmime : get_record_mime_type r ∈ HTML_MIME_TYPES)
    (h3xx : (match r.http_headers with
             | some h => strStartsWith h.statuscode "3"
             | none => false) = false)
    (hpage : dictGet st.pages (r.ts ++ "/" ++ r.url) = some e)
    (hext : st.extract_text = true)
    (hbody : r.body ≠ "")
    (hdoc : r.extract = some doc) :
    (e.title.getD r.url ≠ r.url →
      dictGet (text_phase st r).pages (r.ts ++ "/" ++ r.url) =
        some { e with text := if doc.content ≠ "" then some doc.content else e.text }) ∧
    (e.title.getD r.url = r.url → doc.title ≠ "" →
      dictGet (text_phase st r).pages (r.ts ++ "/" ++ r.url) =
        some { e with title := some doc.title,
                      text := if doc.content ≠ "" then some doc.content else e.text }) := by
  have hblock : text_phase st r = text_extract_block st r := by
    unfold text_phase
    rw [if_neg (not_not_intro hmime), if_neg (by rw [h3xx]; exact fun hc => by cases hc)]
    simp only [hpage]
  rw [hblock]
  unfold text_extract_block text_extract_pages
  rw [hext, hdoc]
  simp only [not_true, if_false, if_neg (not_not_intro rfl)]
  rw [if_neg hbody]
  by_cases hc : doc.content ≠ ""
  · rw [if_pos hc]
    have hph : dictGet (dictUpdate st.pages (r.ts ++ "/" ++ r.url)
        (fun e => { e with text := some doc.content })) (r.ts ++ "/" ++ r.url)
        = some { e with text := some doc.content } := by
      rw [dictGet_dictUpdate, hpage]
      rfl
    constructor
    · intro hne
      rw [if_neg (by
        rw [hph]
        intro hcond
        have := hcond.2
        simp only [Option.getD] at this
        exact hne (by
          have hb := this
          simp only [beq_iff_eq] at hb
          exact hb))]
      simp only [hph, if_pos hc]
    · intro hdef hti
      rw [if_pos (by
        rw [hph]
        refine ⟨hti, ?_⟩
        simp only [beq_iff_eq]
        exact hdef)]
      simp only [dictGet_dictUpdate, hph]
      rw [if_pos hc]
      rfl
  · rw [if_neg hc]
    constructor
    · intro hne
      rw [if_neg (by
        rw [hpage]
        intro hcond
        have hb := hcond.2
        simp only [beq_iff_eq] at hb
        exact hne hb)]
      simp only [hpage, if_neg hc]
    · intro hdef hti
      rw [if_pos (by
        rw [hpage]
        refine ⟨hti, ?_⟩
        simp only [beq_iff_eq]
        exact hdef)]
      simp only [dictGet_dictUpdate, hpage]
      rw [if_neg hc]
      rfl

/-- Witness for C9: the page titled `My Title` keeps its title while the
extracted body text is stored. -/
theorem C9_title_preservation_witness :
    dictGet (text_phase c9_state c9_record).pages "20200101000000/http://a/" =
      some { timestamp := "20200101000000", url := "http://a/",
             title := some "My Title", text := some "Body text" } := by
  have h := (C9_title_preservation c9_state c9_record
      { timestamp := "20200101000000", url := "http://a/", title := some "My Title" }
      { content := "Body text", title := "Extracted" }
      (by decide) (by decide) (by decide) rfl (by decide) rfl).1 (by decide)
  exact h.trans (by decide)

lemma do_sign_spec (post_result : Option HttpResponse) (st : IndexerState)
    (d : DigestDict) (hd : d.signedData = none) (j : SignJson) :
    (do_sign post_result st d).path = d.path ∧
    (do_sign post_result st d).hash = d.hash ∧
    ((do_sign post_result st d).signedData = some j ↔
      (post_result = some { status_code := 200, jsonBody := some j } ∧
       j.hash? = some d.hash ∧ ∃ c, j.created? = some c ∧ st.created = some c)) := by
  unfold do_sign
  cases post_result with
  | none =>
    refine ⟨by simp, by simp, ?_⟩
    rw [hd]
    simp
  | some res =>
    obtain ⟨code, body⟩ := res
    simp only []
    by_cases h200 : code ≠ 200
    · rw [if_pos h200]
      refine ⟨by simp, by simp, ?_⟩
      rw [hd]
      constructor
      · intro h
        cases h
      · rintro ⟨hres, _⟩
        injection hres with hres
        exact absurd (congrArg HttpResponse.status_code hres) h200
    · rw [if_neg h200]
      have hc : code = 200 := not_not.mp h200
      subst hc
      cases body with
      | none =>
        simp only []
        refine ⟨by simp, by simp, ?_⟩
        rw [hd]
        constructor
        · intro h
          cases h
        · rintro ⟨hres, _⟩
          injection hres with hres
          have hb := congrArg HttpResponse.jsonBody hres
          simp at hb
      | some j0 =>
        simp only []
        cases hjh : j0.hash? with
        | none =>
          simp only []
          refine ⟨by simp, by simp, ?_⟩
          rw [hd]
          constructor
          · intro h
            cases h
          · rintro ⟨hres, hh, _⟩
            injection hres with hres
            have hb := congrArg HttpResponse.jsonBody hres
            simp only [] at hb
            injection hb with hb
            rw [← hb] at hh
            rw [hjh] at hh
            cases hh
        | some h0 =>
          simp only []
          by_cases hhash : h0 ≠ d.hash
          · rw [if_pos hhash]
            refine ⟨by simp, by simp, ?_⟩
            rw [hd]
            constructor
            · intro h
              cases h
            · rintro ⟨hres, hh, _⟩
              injection hres with hres
              have hb := congrArg HttpResponse.jsonBody hres
              simp only [] at hb
              injection hb with hb
              rw [← hb, hjh] at hh
              injection hh with hh
              exact absurd hh hhash
          · rw [if_neg hhash]
            have hhe : h0 = d.hash := not_not.mp hhash
            cases hjc : j0.created? with
            | none =>
              simp only []
              refine ⟨by simp, by simp, ?_⟩
              rw [hd]
              constructor
              · intro h
                cases h
              · rintro ⟨hres, _, c, hcr, _⟩
                injection hres with hres
                have hb := congrArg HttpResponse.jsonBody hres
                simp only [] at hb
                injection hb with hb
                rw [← hb, hjc] at hcr
                cases hcr
            | some c0 =>
              simp only []
              by_cases hcm : some c0 ≠ st.created
              · rw [if_pos hcm]
                refine ⟨by simp, by simp, ?_⟩
                rw [hd]
                constructor
                · intro h
                  cases h
                · rintro ⟨hres, _, c, hcr, hstc⟩
                  injection hres with hres
                  have hb := congrArg HttpResponse.jsonBody hres
                  simp only [] at hb
                  injection hb with hb
                  rw [← hb, hjc] at hcr
                  injection hcr with hcr
                  rw [← hcr] at hstc
                  exact absurd hstc.symm hcm
              · rw [if_neg hcm]
                have hce : st.created = some c0 := (not_not.mp hcm).symm
                refine ⟨by simp, by simp, ?_⟩
                constructor
                · intro h
                  injection h with h
                  subst h
                  exact ⟨rfl, hhe ▸ hjh, c0, hjc, hce⟩
                · rintro ⟨hres, _⟩
                  injection hres with hres
                  have hb := congrArg HttpResponse.jsonBody hres
                  simp only [] at hb
                  injection hb with hb
                  rw [hb]

/-- C8: digest generation always emits the digest record with path
`datapackage.json` and the sha256-prefixed hash of the manifest bytes;
`signedData` is attached iff a signing url is configured, the post succeeded
with status 200 and a decodable JSON body, and that body echoes exactly the
request hash and the recorded `created` timestamp — every failure mode
(transport exception, non-200 status, undecodable body, missing or
mismatching echo) leaves the digest unsigned but intact. -/
theorem C8_signing_failure_nonfatal (sha256hex : String → String)
    (post_result : Option HttpResponse) (st : IndexerState) (bytes : String) :
    (generate_datapackage_digest sha256hex post_result st bytes).path =
      "datapackage.json" ∧
    (generate_datapackage_digest sha256hex post_result st bytes).hash =
      "sha256:" ++ sha256hex bytes ∧
    ∀ j, ((generate_datapackage_digest sha256hex post_result st bytes).signedData = some j ↔
      (pyTruthy st.signing_url ∧
       post_result = some { status_code := 200, jsonBody := some j } ∧
       j.hash? = some ("sha256:" ++ sha256hex bytes) ∧
       ∃ c, j.created? = some c ∧ st.created = some c)) := by
  unfold generate_datapackage_digest
  by_cases hs : pyTruthy st.signing_url
  · rw [if_pos hs]
    refine ⟨?_, ?_, fun j => ?_⟩
    · exact (do_sign_spec post_result st _ rfl {}).1
    · exact (do_sign_spec post_result st _ rfl {}).2.1
    · rw [(do_sign_spec post_result st
        { path := "datapackage.json", hash := "sha256:" ++ sha256hex bytes }
        rfl j).2.2]
      constructor
      · intro h
        exact ⟨hs, h.1, h.2.1, h.2.2⟩
      · intro h
        exact ⟨h.2.1, h.2.2.1, h.2.2.2⟩
  · rw [if_neg hs]
    refine ⟨rfl, rfl, fun j => ?_⟩
    constructor
    · intro h
      cases h
    · intro h
      exact absurd h.1 hs

/-- C7 (code bug): the constructor's comment promises sha256 as the default
hash algorithm, but `kwargs.pop("hash_type", "")` yields `""` when the
keyword is omitted and the `== None` check at line 48 does not catch it, so
the configured algorithm stays the empty string, not `"sha256"` (only an
explicit Python `None` is defaulted).  Manifest entry hashes are computed by
streaming each entry through whatever `hash_type` holds. -/
theorem C7_hash_type_default :
    (WACZIndexer_init {}).hash_type = some "" ∧
    (some "" : Option String) ≠ some "sha256" ∧
    (WACZIndexer_init { hash_type := none }).hash_type = some "sha256" ∧
    (∀ (hashHex : String → String → String) (tsToIso : String → String)
       (nowStr : String) (res : ResArgs) (z : ZipEntry) (st : IndexerState),
      (generate_datapackage hashHex tsToIso nowStr res [z] st).1.resources =
        [{ name := strToLower (pyBasename z.filename), path := z.filename,
           hash := (st.hash_type.getD "") ++ ":" ++ hashHex (st.hash_type.getD "") z.content,
           bytes := z.content.length }]) := by
  refine ⟨by decide, by decide, by decide, ?_⟩
  intro hashHex tsToIso nowStr res z st
  rfl

/-- C1 (as written, refuted): after a seed-splitting scan in which the main
page was found and the referrer gate was closed, the main page id is a member
of BOTH `pages` and `extra_pages` — the post-scan reassignment copies the
whole (pruned) `pages` dict, main entry included, into `extra_pages` before
collapsing `pages` to the main page, so the two collections are not disjoint
and membership is not mutually exclusive. -/
theorem C1_seed_split_counterexample :
    (match process_all c1_loads c1_args [c1_warcinfo, c1_main_record] with
     | .ok st => (dictGet st.pages "20200101000000/http://a/").isSome
                 && (dictGet st.extra_pages "20200101000000/http://a/").isSome
     | .error _ => false) = true := by decide

/-- C1 amended: when seed-splitting is enabled and a main page was recorded
(detection on, no expected pages left), the post-scan reassignment makes
`pages` exactly the singleton main-page map and `extra_pages` exactly the
referrer-pruned (or unpruned, when the gate was closed) previous `pages`
dict; consequently the union of the two covers the previous page ids plus
the main id, but they are not disjoint: whenever the main entry survived
pruning — in particular whenever the gate was closed — the main id belongs
to both collections. -/
theorem C1_seed_split_amended (st : IndexerState) (mid : String) (me : PageEntry)
    (hd : st.detect_pages = true) (hp : st.passed_pages_dict = [])
    (hs : st.split_seeds = true) (hm : st.main_page = some (mid, me))
    (hf : st.main_url_flag ≠ some false) :
    post_scan st = .ok { st with
      pages := [(mid, me)],
      extra_pages := if st.detect_referrer_check then prune_pages st.pages st.referrers
                     else st.pages } ∧
    (st.detect_referrer_check = false → (dictGet st.pages mid).isSome = true →
      ∀ st', post_scan st = .ok st' →
        (dictGet st'.pages mid).isSome = true ∧
        (dictGet st'.extra_pages mid).isSome = true) := by
  have heq := post_scan_split st mid me hd hp hs hm hf
  refine ⟨heq, ?_⟩
  intro hg hmem st' hst'
  rw [heq] at hst'
  injection hst' with hst'
  subst hst'
  constructor
  · show (dictGet [(mid, me)] mid).isSome = true
    unfold dictGet
    rw [if_pos rfl]
    rfl
  · show (dictGet (if st.detect_referrer_check then prune_pages st.pages st.referrers
      else st.pages) mid).isSome = true
    rw [if_neg (by rw [hg]; exact fun hc => by cases hc)]
    exact hmem

/-- Witness for the amended C1: the concrete C1 scan ends with the main page
id present in both collections. -/
theorem C1_seed_split_amended_witness :
    (dictGet (okState (process_all c1_loads c1_args [c1_warcinfo, c1_main_record])).pages
      "20200101000000/http://a/").isSome = true ∧
    (dictGet (okState (process_all c1_loads c1_args [c1_warcinfo, c1_main_record])).extra_pages
      "20200101000000/http://a/").isSome = true := by
  exact (C1_seed_split_amended
    (okState (run_records c1_loads (WACZIndexer_init c1_args) [c1_warcinfo, c1_main_record]))
    "20200101000000/http://a/"
    { timestamp := "20200101000000", url := "http://a/", title := some "http://a/", seed := true }
    (by decide) (by decide) (by decide) (by decide) (by decide)).2 (by decide) (by decide)
    (okState (process_all c1_loads c1_args [c1_warcinfo, c1_main_record])) rfl

end Wacz